import Mathlib

/-!
Shallow embedding of the module-validation core of `wasm-tools`
(`crates/wasmparser/src/validator/core.rs`): the module index spaces
(`Module`), the ownership handle (`arc::MaybeOwned`), the constant-expression
sub-validator (`ModuleState::check_const_expr` and its `VisitConstOperator`),
and the per-section operations (`add_import`, `add_export`, `add_global`,
`add_table`, `add_memory`, `add_element_segment`, `add_data_segment`,
`export_to_entity_type`).

External collaborators that live outside the excerpted source (the type
store's subtyping and sharedness queries, the feature-gate predicates on
value types, entity type sizes, and the operand-stack bookkeeping of the
reused operator validator) are modelled from the specification and are
marked as such in their doc comments.
-/

namespace WasmCore

/-- Error taxonomy of the validator.  The source reports every failure as a
`BinaryReaderError` with a message string; the constructors here follow the
taxonomy of the specification, and each embedded `bail!`/`format_err!` site
is mapped to the taxonomy kind matching its message. -/
inductive VError : Type
  | outOfBounds (msg : String)
  | typeMismatch (msg : String)
  | limitExceeded (msg : String)
  | featureDisabled (msg : String)
  | duplicateExport (name : String)
  | invalidLimits (msg : String)
  | nonConstantOperator (msg : String)
  | sharedMismatch (msg : String)
  | otherErr (msg : String)
deriving DecidableEq, Repr

/-- Feature flags of `WasmFeatures` that the excerpted source consults. -/
structure Features : Type where
  mutable_global : Bool
  bulk_memory : Bool
  gc : Bool
  extended_const : Bool
  threads : Bool
  memory64 : Bool
  custom_page_sizes : Bool
  shared_everything_threads : Bool
  reference_types : Bool
  multi_memory : Bool
  function_references : Bool
  exceptions : Bool
  stack_switching : Bool
deriving DecidableEq, Repr

/-- Heap types: the abstract heads plus a concrete module-local type index. -/
inductive HeapTy : Type
  | funcH
  | externH
  | anyH
  | eqH
  | i31H
  | structH
  | arrayH
  | noneH
  | concrete (idx : Nat)
deriving DecidableEq, Repr

/-- Reference type: nullability bit plus heap type. -/
structure RefTy : Type where
  nullable : Bool
  heap : HeapTy
deriving DecidableEq, Repr

/-- The `(ref func)` type, produced by `ref.func` (`RefType::FUNC`). -/
def RefTy.FUNC : RefTy := ⟨false, HeapTy.funcH⟩

/-- The `funcref` type (`RefType::FUNCREF`), nullable. -/
def RefTy.FUNCREF : RefTy := ⟨true, HeapTy.funcH⟩

/-- Value types. -/
inductive ValTy : Type
  | i32
  | i64
  | f32
  | f64
  | v128
  | ref (rt : RefTy)
deriving DecidableEq, Repr

/-- Table type (`TableType`). -/
structure TableType : Type where
  element_type : RefTy
  table64 : Bool
  shared : Bool
  initial : Nat
  maximum : Option Nat
deriving DecidableEq, Repr

/-- Index type of a table: `i64` for 64-bit tables, `i32` otherwise. -/
def TableType.index_type (t : TableType) : ValTy :=
  if t.table64 then ValTy.i64 else ValTy.i32

/-- Memory type (`MemoryType`). -/
structure MemoryType : Type where
  memory64 : Bool
  shared : Bool
  initial : Nat
  maximum : Option Nat
  page_size_log2 : Option Nat
deriving DecidableEq, Repr

/-- Index type of a memory: `i64` for 64-bit memories, `i32` otherwise. -/
def MemoryType.index_type (m : MemoryType) : ValTy :=
  if m.memory64 then ValTy.i64 else ValTy.i32

/-- Global type (`GlobalType`). -/
structure GlobalType : Type where
  content_type : ValTy
  mutable : Bool
  shared : Bool
deriving DecidableEq, Repr

/-- Entity type over the five importable and exportable kinds.  Function and
tag entries carry the interned `CoreTypeId` (a natural number here). -/
inductive EntityType : Type
  | func (id : Nat)
  | table (t : TableType)
  | memory (m : MemoryType)
  | global (g : GlobalType)
  | tag (id : Nat)
deriving DecidableEq, Repr

/-- Modelled from the spec: the collaborators outside the excerpted source.
The type store answers subtype, sharedness and composite-kind queries on
interned type ids (spec section 4.2), the feature set answers value-type and
reference-type admissibility (spec section 4.1), and every entity type
carries a numeric type size used for the complexity budget (spec section 3).
These are opaque oracles here; the embedded code calls them exactly where
the source calls the corresponding externals. -/
structure Externals : Type where
  isFunc : Nat → Bool
  resultsEmpty : Nat → Bool
  reftype_is_subtype : RefTy → RefTy → Bool
  reftype_is_shared : RefTy → Bool
  valtype_is_shared : ValTy → Bool
  size : EntityType → Nat
  check_value_type : Features → ValTy → Bool
  feat_check_ref_type : Features → RefTy → Bool

/-- Modelled from the spec: per-section entity-count ceilings and the global
type-size budget (the `MAX_*` constants of `limits.rs`, which is outside the
excerpted source; spec section 5). -/
def MAX_WASM_TYPES : Nat := 1000000

/-- Modelled from the spec: ceiling for the function index space. -/
def MAX_WASM_FUNCTIONS : Nat := 1000000

/-- Modelled from the spec: ceiling for the number of exports. -/
def MAX_WASM_EXPORTS : Nat := 100000

/-- Modelled from the spec: ceiling for the number of globals. -/
def MAX_WASM_GLOBALS : Nat := 1000000

/-- Modelled from the spec: ceiling for the number of tags. -/
def MAX_WASM_TAGS : Nat := 1000000

/-- Modelled from the spec: ceiling for the number of tables. -/
def MAX_WASM_TABLES : Nat := 100000

/-- Modelled from the spec: ceiling for the number of memories. -/
def MAX_WASM_MEMORIES : Nat := 100000

/-- Modelled from the spec: ceiling for element entries in one segment. -/
def MAX_WASM_TABLE_ENTRIES : Nat := 10000000

/-- Modelled from the spec: global declared-type complexity budget. -/
def MAX_TYPE_SIZE : Nat := 1000000

/-- Modelled from the spec: the default Wasm page size (64 KiB). -/
def DEFAULT_WASM_PAGE_SIZE : Nat := 65536

/-- Modelled from the spec: page ceiling of a 32-bit memory for a given page
size (4 GiB of addressable bytes divided by the page size). -/
def max_wasm_memory32_pages (page_size : Nat) : Nat := 2 ^ 32 / page_size

/-- Modelled from the spec: page ceiling of a 64-bit memory for a given page
size. -/
def max_wasm_memory64_pages (page_size : Nat) : Nat := 2 ^ 64 / page_size

/-- Result of an operation that can hit a Rust panic (an `assert!`,
`unwrap()` or `unreachable!()`). -/
inductive PRes (α : Type) : Type
  | ok (a : α)
  | panicked
deriving DecidableEq, Repr

/-- The three-state ownership handle `arc::MaybeOwned<T>`: `Owned` gives
exclusive mutable access, `Shared` is the refcounted snapshot, `Empty` is
the transient state used while swapping from owned to shared. -/
inductive MaybeOwned (T : Type) : Type
  | owned (t : T)
  | shared (t : T)
  | empty
deriving DecidableEq, Repr

namespace MaybeOwned

/-- Constructor `MaybeOwned::new`: starts in the owned state. -/
def new {T : Type} (t : T) : MaybeOwned T := MaybeOwned.owned t

/-- Method `as_mut`: an optional mutable borrow, `None` when shared; the
`Empty` arm is `unreachable!()`, a panic. -/
def as_mut {T : Type} : MaybeOwned T → PRes (Option T)
  | .owned t => .ok (some t)
  | .shared _ => .ok none
  | .empty => .panicked

/-- Method `assert_mut`: `as_mut().unwrap()`, panicking unless owned. -/
def assert_mut {T : Type} (mo : MaybeOwned T) : PRes T :=
  match mo.as_mut with
  | .ok (some t) => .ok t
  | .ok none => .panicked
  | .panicked => .panicked

/-- Method `make_shared`: transitions owned to shared through the transient
empty state; a no-op when already shared; `unreachable!()` when empty. -/
def make_shared {T : Type} : MaybeOwned T → PRes (MaybeOwned T)
  | .owned t => .ok (.shared t)
  | .shared t => .ok (.shared t)
  | .empty => .panicked

/-- Method `arc`: `make_shared` followed by reading the shared handle. -/
def arc {T : Type} (mo : MaybeOwned T) : PRes (T × MaybeOwned T) :=
  match mo.make_shared with
  | .ok (.shared t) => .ok (t, .shared t)
  | .ok _ => .panicked
  | .panicked => .panicked

/-- The `Deref` impl: an immutable borrow in both the owned and the shared
states, `unreachable!()` when empty. -/
def deref {T : Type} : MaybeOwned T → PRes T
  | .owned t => .ok t
  | .shared t => .ok t
  | .empty => .panicked

end MaybeOwned

/-- The accumulated per-module index spaces (`struct Module` in the source).
`types` stores interned `CoreTypeId`s, `functions` stores module-local type
indices, `function_references` is the set of function indices referenced by
`ref.func` in initializers, by element entries and by exports (a duplicate
free list models the `Set<u32>`), `imports` maps a module and field name to
the ordered sequence of imported entity types, and `exports` maps an export
name to its entity type (insertion ordered, names unique). -/
structure Module : Type where
  types : List Nat
  tables : List TableType
  memories : List MemoryType
  globals : List GlobalType
  element_types : List RefTy
  data_count : Option Nat
  functions : List Nat
  tags : List Nat
  function_references : List Nat
  imports : List ((String × String) × List EntityType)
  exports : List (String × EntityType)
  type_size : Nat
  num_imported_globals : Nat
  num_imported_functions : Nat
  features : Features
deriving DecidableEq, Repr

/-- Constructor `Module::new`: everything empty, `type_size` starts at 1. -/
def Module.new (features : Features) : Module :=
  { types := []
    tables := []
    memories := []
    globals := []
    element_types := []
    data_count := none
    functions := []
    tags := []
    function_references := []
    imports := []
    exports := []
    type_size := 1
    num_imported_globals := 0
    num_imported_functions := 0
    features := features }

/-- Insertion into the `function_references` set: a no-op when the index is
already present. -/
def insertRef (l : List Nat) (x : Nat) : List Nat :=
  if x ∈ l then l else x :: l

/-- Insertion into the `exports` index map: replaces the value and returns
the previous one when the key is present, appends otherwise. -/
def insertExport : List (String × EntityType) → String → EntityType →
    Option EntityType × List (String × EntityType)
  | [], n, t => (none, [(n, t)])
  | (k, v) :: rest, n, t =>
    if k = n then (some v, (k, t) :: rest)
    else
      let r := insertExport rest n t
      (r.1, (k, v) :: r.2)

/-- Insertion into the `imports` index map: appends the entity to the entry
of the key, creating the entry when absent. -/
def insertImport : List ((String × String) × List EntityType) →
    String × String → EntityType → List ((String × String) × List EntityType)
  | [], key, e => [(key, [e])]
  | (k, v) :: rest, key, e =>
    if k = key then (k, v ++ [e]) :: rest
    else (k, v) :: insertImport rest key e

/-- Helper `check_max` (declared outside the excerpted file): errors when a
space would exceed its ceiling after adding `amt` entities. -/
def check_max (len amt maxv : Nat) (desc : String) : Except VError Unit :=
  if maxv < len + amt then .error (.limitExceeded desc) else .ok ()

/-- Helper `combine_type_sizes` (declared outside the excerpted file,
modelled from the spec): adds the two sizes, erroring when the running
complexity budget would be breached. -/
def combine_type_sizes (a b : Nat) : Except VError Nat :=
  if a + b ≤ MAX_TYPE_SIZE then .ok (a + b) else
    .error (.limitExceeded "type nesting is too deep")

/-- Source `Module::check_heap_type`: an abstract heap type is always fine;
a concrete one must be an in-range module type index. -/
def check_heap_type (m : Module) (h : HeapTy) : Except VError Unit :=
  match h with
  | .concrete idx =>
    if idx < m.types.length then .ok ()
    else .error (.outOfBounds "unknown type: type index out of bounds")
  | _ => .ok ()

/-- Source `Module::check_ref_type`: the feature gate on the reference type
followed by the heap-type bound check. -/
def check_ref_type (E : Externals) (m : Module) (ty : RefTy) : Except VError Unit :=
  if E.feat_check_ref_type m.features ty then check_heap_type m ty.heap
  else .error (.featureDisabled "reference type requires a disabled proposal")

/-- Source `Module::check_value_type`: reference types go through
`check_ref_type`, every other value type through the feature set. -/
def check_value_type (E : Externals) (m : Module) (ty : ValTy) : Except VError Unit :=
  match ty with
  | .ref rt => check_ref_type E m rt
  | _ =>
    if E.check_value_type m.features ty then .ok ()
    else .error (.featureDisabled "value type requires a disabled proposal")

/-- Source `Module::check_global_type`: content type admissibility, then the
shared-global feature gate, then the shared content-type requirement. -/
def check_global_type (E : Externals) (m : Module) (ty : GlobalType) : Except VError Unit :=
  match check_value_type E m ty.content_type with
  | .error e => .error e
  | .ok _ =>
    if ty.shared ∧ ¬ m.features.shared_everything_threads then
      .error (.featureDisabled "shared globals require the shared-everything-threads proposal")
    else if ty.shared ∧ ¬ E.valtype_is_shared ty.content_type then
      .error (.sharedMismatch "shared globals must have a shared value type")
    else .ok ()

/-- Source `Module::check_limits`: the declared minimum must not exceed the
declared maximum. -/
def check_limits (initial : Nat) (maximum : Option Nat) : Except VError Unit :=
  match maximum with
  | some mx =>
    if initial > mx then
      .error (.invalidLimits "size minimum must not be greater than maximum")
    else .ok ()
  | none => .ok ()

/-- Final check of `check_table_type`: a shared table must have a shared
element type. -/
def sharedElemCheck (E : Externals) (ty : TableType) : Except VError Unit :=
  if ty.shared ∧ ¬ E.reftype_is_shared ty.element_type then
    .error (.sharedMismatch "shared tables must have a shared element type")
  else .ok ()

/-- Source `Module::check_table_type`: feature check on the element type
(skipped for plain `funcref`), limits, the 64-bit and shared feature gates,
the entry-count ceiling and the shared element-type requirement. -/
def check_table_type (E : Externals) (m : Module) (ty : TableType) : Except VError Unit :=
  match (if ty.element_type = RefTy.FUNCREF then .ok ()
         else check_ref_type E m ty.element_type) with
  | .error e => .error e
  | .ok _ =>
    match check_limits ty.initial ty.maximum with
    | .error e => .error e
    | .ok _ =>
      if ty.table64 ∧ ¬ m.features.memory64 then
        .error (.featureDisabled "memory64 must be enabled for 64-bit tables")
      else if ty.shared ∧ ¬ m.features.shared_everything_threads then
        .error (.featureDisabled "shared tables require the shared-everything-threads proposal")
      else
        let true_maximum : Nat := if ty.table64 then 2 ^ 64 - 1 else 2 ^ 32 - 1
        if ty.initial > true_maximum then
          .error (.invalidLimits "table size must be at most the index ceiling")
        else
          match ty.maximum with
          | some mx =>
            if mx > true_maximum then
              .error (.invalidLimits "table size must be at most the index ceiling")
            else sharedElemCheck E ty
          | none => sharedElemCheck E ty

/-- Final check of `check_memory_type`: a shared memory must declare a
maximum size. -/
def sharedMaxCheck (ty : MemoryType) : Except VError Unit :=
  if ty.shared ∧ ty.maximum.isNone then
    .error (.invalidLimits "shared memory must have maximum size")
  else .ok ()

/-- Page-size resolution of `check_memory_type`: a declared page size
demands the custom-page-sizes proposal and must be two to the zeroth or
sixteenth power; otherwise the default page size applies. -/
def pageSizeOf (m : Module) (ty : MemoryType) : Except VError Nat :=
  match ty.page_size_log2 with
  | some l =>
    if ¬ m.features.custom_page_sizes then
      .error (.featureDisabled "the custom page sizes proposal must be enabled")
    else if l ≠ 0 ∧ l ≠ 16 then
      .error (.otherErr "invalid custom page size")
    else .ok (2 ^ l)
  | none => .ok DEFAULT_WASM_PAGE_SIZE

/-- Source `Module::check_memory_type`: limits, the 64-bit and threads
feature gates, the page-size gate and value check, the page ceiling on both
limits, and the shared-memory maximum requirement, in source order. -/
def check_memory_type (m : Module) (ty : MemoryType) : Except VError Unit :=
  match check_limits ty.initial ty.maximum with
  | .error e => .error e
  | .ok _ =>
    if ty.memory64 ∧ ¬ m.features.memory64 then
      .error (.featureDisabled "memory64 must be enabled for 64-bit memories")
    else if ty.shared ∧ ¬ m.features.threads then
      .error (.featureDisabled "threads must be enabled for shared memories")
    else
      match pageSizeOf m ty with
      | .error e => .error e
      | .ok page_size =>
        let true_maximum : Nat :=
          if ty.memory64 then max_wasm_memory64_pages page_size
          else max_wasm_memory32_pages page_size
        if ty.initial > true_maximum then
          .error (.invalidLimits "memory size must be at most the page ceiling")
        else
          match ty.maximum with
          | some mx =>
            if mx > true_maximum then
              .error (.invalidLimits "memory size must be at most the page ceiling")
            else sharedMaxCheck ty
          | none => sharedMaxCheck ty

/-- Source `Module::check_tag_type`: the exceptions gate, the function type
at the tag index, and the empty-result requirement absent stack switching. -/
def check_tag_type (E : Externals) (m : Module) (func_type_idx : Nat) : Except VError Unit :=
  if ¬ m.features.exceptions then
    .error (.featureDisabled "exceptions proposal not enabled")
  else
    match m.types[func_type_idx]? with
    | none => .error (.outOfBounds "unknown type: type index out of bounds")
    | some id =>
      if ¬ E.isFunc id then
        .error (.typeMismatch "type index is not a function type")
      else if ¬ E.resultsEmpty id ∧ ¬ m.features.stack_switching then
        .error (.typeMismatch "invalid exception type: non-empty tag result type")
      else .ok ()

/-- Source `Module::func_type_at`: the type at the index must exist and be a
function type. -/
def func_type_at (E : Externals) (m : Module) (type_index : Nat) : Except VError Unit :=
  match m.types[type_index]? with
  | none => .error (.outOfBounds "unknown type: type index out of bounds")
  | some id =>
    if E.isFunc id then .ok ()
    else .error (.typeMismatch "type index is not a function type")

/-- Source `Module::get_func_type`: resolves a function index to its type,
erroring when the index is out of bounds. -/
def get_func_type (E : Externals) (m : Module) (func_idx : Nat) : Except VError Unit :=
  match m.functions[func_idx]? with
  | none => .error (.outOfBounds "unknown function: func index out of bounds")
  | some tyIdx => func_type_at E m tyIdx

/-- Source `Module::global_at`. -/
def global_at (m : Module) (idx : Nat) : Except VError GlobalType :=
  match m.globals[idx]? with
  | some g => .ok g
  | none => .error (.outOfBounds "unknown global: global index out of bounds")

/-- Source `Module::table_at`. -/
def table_at (m : Module) (idx : Nat) : Except VError TableType :=
  match m.tables[idx]? with
  | some t => .ok t
  | none => .error (.outOfBounds "unknown table: table index out of bounds")

/-- Source `Module::memory_at`. -/
def memory_at (m : Module) (idx : Nat) : Except VError MemoryType :=
  match m.memories[idx]? with
  | some t => .ok t
  | none => .error (.outOfBounds "unknown memory: memory index out of bounds")

/-- Source `Module::max_tables`. -/
def max_tables (m : Module) : Nat :=
  if m.features.reference_types then MAX_WASM_TABLES else 1

/-- Source `Module::max_memories`. -/
def max_memories (m : Module) : Nat :=
  if m.features.multi_memory then MAX_WASM_MEMORIES else 1

/-- Outcome of a state-mutating validator operation.  Rust methods take
`&mut self`, so mutations made before an error persist: the error carries
the post-mutation state.  `panic` models a Rust panic (`assert!`, `unwrap`,
`unreachable!`). -/
inductive Outcome (σ : Type) : Type
  | ok (s : σ)
  | error (e : VError) (s : σ)
  | panic
deriving DecidableEq, Repr

/-- Operators that can appear in the embedded constant expressions: the
always-constant operators, the extended-const arithmetic, and `otherOp` for
every remaining (non-constant) operator, named by its mnemonic. -/
inductive ConstOp : Type
  | i32_const
  | i64_const
  | f32_const
  | f64_const
  | ref_null (h : HeapTy)
  | ref_func (idx : Nat)
  | global_get (idx : Nat)
  | i32_add
  | i32_sub
  | i32_mul
  | i64_add
  | i64_sub
  | i64_mul
  | end_op
  | otherOp (name : String)
deriving DecidableEq, Repr

/-- State of one `check_const_expr` run: the module handle, the modelled
operand stack (head is the top), the `uninserted_funcref` flag, and whether
the final `end` has been seen. -/
structure CEState : Type where
  module : MaybeOwned Module
  stack : List ValTy
  uninserted_funcref : Bool
  done : Bool
deriving DecidableEq, Repr

/-- Source `VisitConstOperator::validate_global` (verbatim order): the
global must exist, must be imported unless the gc proposal is enabled, and
must be immutable. -/
def validate_global (m : Module) (idx : Nat) : Except VError Unit :=
  match m.globals[idx]? with
  | none => .error (.outOfBounds "unknown global: global index out of bounds")
  | some g =>
    if idx ≥ m.num_imported_globals ∧ ¬ m.features.gc then
      .error (.nonConstantOperator "global.get of locally defined global")
    else if g.mutable then
      .error (.nonConstantOperator "global.get of mutable global")
    else .ok ()

/-- Modelled from the spec: the operand-stack bookkeeping that the source
delegates to the reused operator validator (`operators.rs`, outside the
excerpted source).  A push fails when operators follow the final `end`
(section 4.4: the expression is a sequence ending with `end`). -/
def pushV (s : CEState) (t : ValTy) : Outcome CEState :=
  if s.done then .error (.otherErr "operators remaining after end of expression") s
  else .ok { s with stack := t :: s.stack }

/-- Modelled from the spec: a binary numeric operator pops two operands of
the numeric type and pushes one back. -/
def binopV (s : CEState) (t : ValTy) : Outcome CEState :=
  if s.done then .error (.otherErr "operators remaining after end of expression") s
  else
    match s.stack with
    | a :: b :: rest =>
      if a = t ∧ b = t then .ok { s with stack := t :: rest }
      else .error (.typeMismatch "type mismatch: wrong operand types") s
    | _ => .error (.typeMismatch "type mismatch: not enough operands") s

/-- Source `VisitConstOperator::validate_extended_const`: the arithmetic
operators demand the extended-const proposal. -/
def validate_extended_const (feats : Features) (op : String) : Except VError Unit :=
  if feats.extended_const then .ok ()
  else .error (.nonConstantOperator op)

/-- Modelled from the spec: the stack effect of `ref.func` after the
side-effecting insertion; the function index must be in range and a
non-null function reference is pushed (spec sections 3 and 4.4). -/
def refFuncVisit (s : CEState) (m : Module) (idx : Nat) : Outcome CEState :=
  if s.done then .error (.otherErr "operators remaining after end of expression") s
  else if idx < m.functions.length then
    .ok { s with stack := ValTy.ref RefTy.FUNC :: s.stack }
  else .error (.outOfBounds "unknown function: func index out of bounds") s

/-- Source dispatch of one constant operator (the `define_visit_operator`
macro of `check_const_expr`), in source order: `ref.func` first runs
`insert_ref_func` (which inserts into `function_references` when the module
is still owned and otherwise only records `uninserted_funcref`, emitting no
error), `global.get` first runs `validate_global`, the arithmetic operators
first run `validate_extended_const`, and every unlisted operator produces
the `not_const` error. -/
def visitConstOp (expected : ValTy) (s : CEState) (op : ConstOp) : Outcome CEState :=
  match op with
  | .i32_const => pushV s ValTy.i32
  | .i64_const => pushV s ValTy.i64
  | .f32_const => pushV s ValTy.f32
  | .f64_const => pushV s ValTy.f64
  | .ref_null h => pushV s (ValTy.ref ⟨true, h⟩)
  | .ref_func idx =>
    match s.module with
    | .empty => .panic
    | .shared m => refFuncVisit { s with uninserted_funcref := true } m idx
    | .owned m =>
      let m' := { m with function_references := insertRef m.function_references idx }
      refFuncVisit { s with module := .owned m' } m' idx
  | .global_get idx =>
    match s.module.deref with
    | .panicked => .panic
    | .ok m =>
      match validate_global m idx with
      | .error e => .error e s
      | .ok _ =>
        pushV s ((m.globals.getD idx ⟨ValTy.i32, false, false⟩).content_type)
  | .i32_add =>
    match validate_extended_const (featsOf s) "i32.add" with
    | .error e => .error e s
    | .ok _ => binopV s ValTy.i32
  | .i32_sub =>
    match validate_extended_const (featsOf s) "i32.sub" with
    | .error e => .error e s
    | .ok _ => binopV s ValTy.i32
  | .i32_mul =>
    match validate_extended_const (featsOf s) "i32.mul" with
    | .error e => .error e s
    | .ok _ => binopV s ValTy.i32
  | .i64_add =>
    match validate_extended_const (featsOf s) "i64.add" with
    | .error e => .error e s
    | .ok _ => binopV s ValTy.i64
  | .i64_sub =>
    match validate_extended_const (featsOf s) "i64.sub" with
    | .error e => .error e s
    | .ok _ => binopV s ValTy.i64
  | .i64_mul =>
    match validate_extended_const (featsOf s) "i64.mul" with
    | .error e => .error e s
    | .ok _ => binopV s ValTy.i64
  | .end_op =>
    if s.done then .error (.otherErr "operators remaining after end of expression") s
    else if s.stack = [expected] then .ok { s with done := true }
    else .error (.typeMismatch "type mismatch: constant expression result type") s
  | .otherOp name => .error (.nonConstantOperator name) s
where
  /-- Features as read through the module handle (the operator validator is
  constructed with `self.module.features`); an empty handle cannot be read. -/
  featsOf (s : CEState) : Features :=
    match s.module with
    | .owned m => m.features
    | .shared m => m.features
    | .empty => ⟨false, false, false, false, false, false, false, false, false, false,
        false, false, false⟩

/-- The operator loop of `check_const_expr`: visit each operator in order,
stopping at the first error or panic. -/
def runConstOps (expected : ValTy) : List ConstOp → CEState → Outcome CEState
  | [], s => .ok s
  | op :: rest, s =>
    match visitConstOp expected s op with
    | .ok s' => runConstOps expected rest s'
    | .error e s' => .error e s'
    | .panic => .panic

/-- Source `ModuleState::check_const_expr`: run the operators, then the
source asserts `!validator.uninserted_funcref` (a panic when the flag
survives), and finally the expression must have been closed by `end`
(modelled from the spec, section 4.4; the binary parser guarantees a
trailing `end` on every parsed constant expression). -/
def check_const_expr (mo : MaybeOwned Module) (expr : List ConstOp)
    (expected : ValTy) : Outcome (MaybeOwned Module) :=
  match runConstOps expected expr ⟨mo, [], false, false⟩ with
  | .ok s =>
    if s.uninserted_funcref then .panic
    else if s.done then .ok s.module
    else .error (.typeMismatch "type mismatch: constant expression missing end") s.module
  | .error e s => .error e s.module
  | .panic => .panic

/-- The import payload: module name, field name and the referenced type
(`crate::Import` with `TypeRef`). -/
inductive TypeRef : Type
  | func (type_index : Nat)
  | table (t : TableType)
  | memory (t : MemoryType)
  | tag (func_type_idx : Nat)
  | global (g : GlobalType)
deriving DecidableEq, Repr

/-- An import entry. -/
structure Import : Type where
  moduleName : String
  name : String
  ty : TypeRef
deriving DecidableEq, Repr

/-- The kinds of exportable entities (`ExternalKind`). -/
inductive ExternalKind : Type
  | func
  | table
  | memory
  | global
  | tag
deriving DecidableEq, Repr

/-- An export entry (`crate::Export`). -/
structure Export : Type where
  name : String
  kind : ExternalKind
  index : Nat
deriving DecidableEq, Repr

/-- A global entry: its type and initializer expression. -/
structure Global : Type where
  ty : GlobalType
  init_expr : List ConstOp
deriving DecidableEq, Repr

/-- Table initializer (`TableInit`). -/
inductive TableInit : Type
  | refNull
  | initExpr (e : List ConstOp)
deriving DecidableEq, Repr

/-- A table entry. -/
structure TableEntry : Type where
  ty : TableType
  init : TableInit
deriving DecidableEq, Repr

/-- Data-segment kind (`DataKind`). -/
inductive DataKind : Type
  | passive
  | active (memory_index : Nat) (offset_expr : List ConstOp)
deriving DecidableEq, Repr

/-- A data segment. -/
structure DataSeg : Type where
  kind : DataKind
deriving DecidableEq, Repr

/-- Element-segment kind (`ElementKind`); an active segment's table index is
optional in the binary format. -/
inductive ElementKind : Type
  | active (table_index : Option Nat) (offset_expr : List ConstOp)
  | passive
  | declared
deriving DecidableEq, Repr

/-- Element-segment items (`ElementItems`): the function-index form or the
expression form with a declared element type. -/
inductive ElementItems : Type
  | functions (fs : List Nat)
  | expressions (ty : RefTy) (es : List (List ConstOp))
deriving DecidableEq, Repr

/-- An element segment. -/
structure Element : Type where
  kind : ElementKind
  items : ElementItems
deriving DecidableEq, Repr

/-- Source `Module::check_type_ref`: validates the referenced type and
produces the corresponding entity type. -/
def check_type_ref (E : Externals) (m : Module) : TypeRef → Except VError EntityType
  | .func type_index =>
    match func_type_at E m type_index with
    | .error e => .error e
    | .ok _ => .ok (.func (m.types.getD type_index 0))
  | .table t =>
    match check_table_type E m t with
    | .error e => .error e
    | .ok _ => .ok (.table t)
  | .memory t =>
    match check_memory_type m t with
    | .error e => .error e
    | .ok _ => .ok (.memory t)
  | .tag t =>
    match check_tag_type E m t with
    | .error e => .error e
    | .ok _ => .ok (.tag (m.types.getD t 0))
  | .global g =>
    match check_global_type E m g with
    | .error e => .error e
    | .ok _ => .ok (.global g)

/-- Source `Module::add_import`: validate the type reference, then per kind
push into the target space (rejecting a mutable global import without the
mutable-global proposal before pushing), then the space ceiling, then the
type-size budget, then record the import under its two-part name.
Mutations made before a later failing check persist. -/
def add_import (E : Externals) (m : Module) (imp : Import) :
    Except VError Unit × Module :=
  match check_type_ref E m imp.ty with
  | .error e => (.error e, m)
  | .ok entity =>
    let pushed : Except VError (Module × Nat × Nat × String) :=
      match imp.ty with
      | .func type_index =>
        let m' := { m with functions := m.functions ++ [type_index],
                           num_imported_functions := m.num_imported_functions + 1 }
        .ok (m', m'.functions.length, MAX_WASM_FUNCTIONS, "functions")
      | .table t =>
        let m' := { m with tables := m.tables ++ [t] }
        .ok (m', m'.tables.length, max_tables m', "tables")
      | .memory t =>
        let m' := { m with memories := m.memories ++ [t] }
        .ok (m', m'.memories.length, max_memories m', "memories")
      | .tag t =>
        let m' := { m with tags := m.tags ++ [m.types.getD t 0] }
        .ok (m', m'.tags.length, MAX_WASM_TAGS, "tags")
      | .global g =>
        if ¬ m.features.mutable_global ∧ g.mutable then
          .error (.featureDisabled "mutable global support is not enabled")
        else
          let m' := { m with globals := m.globals ++ [g],
                             num_imported_globals := m.num_imported_globals + 1 }
          .ok (m', m'.globals.length, MAX_WASM_GLOBALS, "globals")
    match pushed with
    | .error e => (.error e, m)
    | .ok (m', len, maxv, desc) =>
      match check_max len 0 maxv desc with
      | .error e => (.error e, m')
      | .ok _ =>
        match combine_type_sizes m'.type_size (E.size entity) with
        | .error e => (.error e, m')
        | .ok ts =>
          (.ok (), { m' with type_size := ts,
                             imports := insertImport m'.imports
                               (imp.moduleName, imp.name) entity })

/-- Whether an entity type is a mutable global (the pattern tested by the
mutable-global gate of `add_export`). -/
def isMutableGlobal : EntityType → Bool
  | .global g => g.mutable
  | _ => false

/-- Source `Module::add_export`: the mutable-global gate, the export-count
ceiling when requested, the type-size budget, then the index-map insertion
which reports a duplicate name.  The type-size increase and the map
insertion happen before the duplicate error is returned, so they persist in
the returned state. -/
def add_export (E : Externals) (m : Module) (name : String) (ty : EntityType)
    (check_limit : Bool) : Except VError Unit × Module :=
  if ¬ m.features.mutable_global ∧ isMutableGlobal ty then
    (.error (.featureDisabled "mutable global support is not enabled"), m)
  else
    match (if check_limit then check_max m.exports.length 1 MAX_WASM_EXPORTS "exports"
           else .ok ()) with
    | .error e => (.error e, m)
    | .ok _ =>
      match combine_type_sizes m.type_size (E.size ty) with
      | .error e => (.error e, m)
      | .ok ts =>
        let r := insertExport m.exports name ty
        let m' := { m with type_size := ts, exports := r.2 }
        match r.1 with
        | some _ => (.error (.duplicateExport name), m')
        | none => (.ok (), m')

/-- Source `Module::export_to_entity_type`: bound-check the exported index
per kind; a function export inserts its index into `function_references`
before producing the entity type. -/
def export_to_entity_type (m : Module) (ex : Export) :
    Except VError (EntityType × Module) :=
  match ex.kind with
  | .func =>
    if ex.index < m.functions.length then
      .ok (.func (m.types.getD (m.functions.getD ex.index 0) 0),
           { m with function_references := insertRef m.function_references ex.index })
    else .error (.outOfBounds "unknown function: exported function index out of bounds")
  | .table =>
    if ex.index < m.tables.length then
      .ok (.table (m.tables.getD ex.index ⟨RefTy.FUNCREF, false, false, 0, none⟩), m)
    else .error (.outOfBounds "unknown table: exported table index out of bounds")
  | .memory =>
    if ex.index < m.memories.length then
      .ok (.memory (m.memories.getD ex.index ⟨false, false, 0, none, none⟩), m)
    else .error (.outOfBounds "unknown memory: exported memory index out of bounds")
  | .global =>
    if ex.index < m.globals.length then
      .ok (.global (m.globals.getD ex.index ⟨ValTy.i32, false, false⟩), m)
    else .error (.outOfBounds "unknown global: exported global index out of bounds")
  | .tag =>
    if ex.index < m.tags.length then
      .ok (.tag (m.tags.getD ex.index 0), m)
    else .error (.outOfBounds "unknown tag: exported tag index out of bounds")

/-- Source `Module::add_function`: the type index must name a function type. -/
def add_function (E : Externals) (m : Module) (type_index : Nat) :
    Except VError Unit × Module :=
  match func_type_at E m type_index with
  | .error e => (.error e, m)
  | .ok _ => (.ok (), { m with functions := m.functions ++ [type_index] })

/-- Source `Module::add_memory`: check the memory type, then push it. -/
def add_memory (m : Module) (ty : MemoryType) : Except VError Unit × Module :=
  match check_memory_type m ty with
  | .error e => (.error e, m)
  | .ok _ => (.ok (), { m with memories := m.memories ++ [ty] })

/-- Source `Module::add_tag`: check the tag type, then push the interned id
of its function type. -/
def add_tag (E : Externals) (m : Module) (func_type_idx : Nat) :
    Except VError Unit × Module :=
  match check_tag_type E m func_type_idx with
  | .error e => (.error e, m)
  | .ok _ => (.ok (), { m with tags := m.tags ++ [m.types.getD func_type_idx 0] })

/-- Modelled from the spec: `add_type` interns the rec group (the interner
lives outside the excerpted source) and appends the resulting type ids,
after the type-count ceiling (spec section 4.3); the payload carries the ids
assigned by the interner. -/
def add_type_ids (m : Module) (ids : List Nat) : Except VError Unit × Module :=
  match check_max m.types.length ids.length MAX_WASM_TYPES "types" with
  | .error e => (.error e, m)
  | .ok _ => (.ok (), { m with types := m.types ++ ids })

/-- Source `ModuleState::add_global`: check the global type, validate the
initializer as a constant expression of the content type (which may record
function references), then push the global type. -/
def add_global (E : Externals) (mo : MaybeOwned Module) (g : Global) :
    Outcome (MaybeOwned Module) :=
  match mo.deref with
  | .panicked => .panic
  | .ok m =>
    match check_global_type E m g.ty with
    | .error e => .error e mo
    | .ok _ =>
      match check_const_expr mo g.init_expr g.ty.content_type with
      | .panic => .panic
      | .error e mo' => .error e mo'
      | .ok mo' =>
        match mo' with
        | .owned m' => .ok (.owned { m' with globals := m'.globals ++ [g.ty] })
        | _ => .panic

/-- Source `ModuleState::add_table`: check the table type, then the
initializer (`RefNull` demands a nullable element type; an expression
initializer demands the function-references proposal and validates as a
constant expression of the element type), then push. -/
def add_table (E : Externals) (mo : MaybeOwned Module) (t : TableEntry) :
    Outcome (MaybeOwned Module) :=
  match mo.deref with
  | .panicked => .panic
  | .ok m =>
    match check_table_type E m t.ty with
    | .error e => .error e mo
    | .ok _ =>
      match t.init with
      | .refNull =>
        if ¬ t.ty.element_type.nullable then
          .error (.typeMismatch "type mismatch: non-defaultable element type") mo
        else
          match mo with
          | .owned m' => .ok (.owned { m' with tables := m'.tables ++ [t.ty] })
          | _ => .panic
      | .initExpr e =>
        if ¬ m.features.function_references then
          .error (.featureDisabled
            "tables with expression initializers require the function-references proposal") mo
        else
          match check_const_expr mo e (ValTy.ref t.ty.element_type) with
          | .panic => .panic
          | .error err mo' => .error err mo'
          | .ok mo' =>
            match mo' with
            | .owned m' => .ok (.owned { m' with tables := m'.tables ++ [t.ty] })
            | _ => .panic

/-- Source `ModuleState::add_data_segment`: a passive segment demands the
bulk-memory proposal; an active segment validates its offset expression as
a constant expression of the referenced memory's index type. -/
def add_data_segment (mo : MaybeOwned Module) (d : DataSeg) :
    Outcome (MaybeOwned Module) :=
  match mo.deref with
  | .panicked => .panic
  | .ok m =>
    match d.kind with
    | .passive =>
      if ¬ m.features.bulk_memory then
        .error (.featureDisabled "passive data segments require the bulk-memory proposal") mo
      else .ok mo
    | .active memory_index offset_expr =>
      match memory_at m memory_index with
      | .error e => .error e mo
      | .ok mem => check_const_expr mo offset_expr mem.index_type

/-- Element type of the segment items (`add_element_segment`, first match):
the function-index form is `funcref` unchecked; the expression form checks
its declared reference type. -/
def elemTyOf (E : Externals) (m : Module) : ElementItems → Except VError RefTy
  | .functions _ => .ok RefTy.FUNC
  | .expressions ty _ =>
    match check_ref_type E m ty with
    | .error e => .error e
    | .ok _ => .ok ty

/-- Element count of the items (`reader.count()`). -/
def elemCount : ElementItems → Nat
  | .functions fs => fs.length
  | .expressions _ es => es.length

/-- The function-index entry loop of `add_element_segment`: each index is
resolved through `get_func_type` and then inserted into
`function_references` through `assert_mut`. -/
def elemFuncEntries (E : Externals) : List Nat → MaybeOwned Module →
    Outcome (MaybeOwned Module)
  | [], mo => .ok mo
  | f :: fs, mo =>
    match mo.deref with
    | .panicked => .panic
    | .ok m =>
      match get_func_type E m f with
      | .error e => .error e mo
      | .ok _ =>
        match mo with
        | .owned m' =>
          elemFuncEntries E fs
            (.owned { m' with function_references := insertRef m'.function_references f })
        | _ => .panic

/-- The expression entry loop of `add_element_segment`: each entry validates
as a constant expression of the declared element reference type. -/
def elemExprEntries (ty : RefTy) : List (List ConstOp) → MaybeOwned Module →
    Outcome (MaybeOwned Module)
  | [], mo => .ok mo
  | e :: es, mo =>
    match check_const_expr mo e (ValTy.ref ty) with
    | .panic => .panic
    | .error err mo' => .error err mo'
    | .ok mo' => elemExprEntries ty es mo'

/-- Source `ModuleState::add_element_segment`, in source order: compute the
element type; for an active segment resolve the table (an absent index
defaults to table 0), demand the element type be a subtype of the table's
element type, and validate the offset expression against the table's index
type; for a passive or declared segment demand the bulk-memory proposal;
then bound the entry count and process the entries; finally push the
element type. -/
def add_element_segment (E : Externals) (mo : MaybeOwned Module) (e : Element) :
    Outcome (MaybeOwned Module) :=
  match mo.deref with
  | .panicked => .panic
  | .ok m =>
    match elemTyOf E m e.items with
    | .error err => .error err mo
    | .ok element_ty =>
      let kindChecked : Outcome (MaybeOwned Module) :=
        match e.kind with
        | .active table_index offset_expr =>
          match table_at m (table_index.getD 0) with
          | .error err => .error err mo
          | .ok t =>
            if E.reftype_is_subtype element_ty t.element_type then
              check_const_expr mo offset_expr t.index_type
            else
              .error (.typeMismatch
                "type mismatch: invalid element type for table type") mo
        | .passive | .declared =>
          if m.features.bulk_memory then .ok mo
          else .error (.featureDisabled "bulk memory must be enabled") mo
      match kindChecked with
      | .panic => .panic
      | .error err mo' => .error err mo'
      | .ok mo' =>
        if elemCount e.items > MAX_WASM_TABLE_ENTRIES then
          .error (.limitExceeded "number of elements is out of bounds") mo'
        else
          let itemsChecked : Outcome (MaybeOwned Module) :=
            match e.items with
            | .functions fs => elemFuncEntries E fs mo'
            | .expressions ty es => elemExprEntries ty es mo'
          match itemsChecked with
          | .panic => .panic
          | .error err mo'' => .error err mo''
          | .ok mo'' =>
            match mo'' with
            | .owned m'' =>
              .ok (.owned { m'' with element_types := m''.element_types ++ [element_ty] })
            | _ => .panic

/-- Lift an operation on the plain module through the ownership handle: the
section handlers reach the module through `assert_mut`, which panics unless
the handle is still owned. -/
def liftMut (mo : MaybeOwned Module) (f : Module → Except VError Unit × Module) :
    Outcome (MaybeOwned Module) :=
  match mo with
  | .owned m =>
    match f m with
    | (.ok _, m') => .ok (.owned m')
    | (.error e, m') => .error e (.owned m')
  | _ => .panic

/-- Modelled from the spec: the export-section dispatch (section 6) first
computes the entity type through `export_to_entity_type` and then registers
it through `add_export`, both through `assert_mut`. -/
def export_step (E : Externals) (mo : MaybeOwned Module) (ex : Export) :
    Outcome (MaybeOwned Module) :=
  match mo with
  | .owned m =>
    match export_to_entity_type m ex with
    | .error e => .error e (.owned m)
    | .ok (ty, m₁) =>
      match add_export E m₁ ex.name ty true with
      | (.ok _, m₂) => .ok (.owned m₂)
      | (.error e, m₂) => .error e (.owned m₂)
  | _ => .panic

/-- The section payloads routed to the embedded operations (the dispatch
table of spec section 6, restricted to the operations of the excerpted
source). -/
inductive Payload : Type
  | typeP (ids : List Nat)
  | importP (i : Import)
  | functionP (type_index : Nat)
  | tableP (t : TableEntry)
  | memoryP (ty : MemoryType)
  | tagP (func_type_idx : Nat)
  | globalP (g : Global)
  | exportP (e : Export)
  | elementP (e : Element)
  | dataP (d : DataSeg)
deriving DecidableEq, Repr

/-- Dispatch of one payload to its operation. -/
def stepPayload (E : Externals) (mo : MaybeOwned Module) : Payload →
    Outcome (MaybeOwned Module)
  | .typeP ids => liftMut mo (fun m => add_type_ids m ids)
  | .importP i => liftMut mo (fun m => add_import E m i)
  | .functionP t => liftMut mo (fun m => add_function E m t)
  | .tableP t => add_table E mo t
  | .memoryP ty => liftMut mo (fun m => add_memory m ty)
  | .tagP t => liftMut mo (fun m => add_tag E m t)
  | .globalP g => add_global E mo g
  | .exportP e => export_step E mo e
  | .elementP e => add_element_segment E mo e
  | .dataP d => add_data_segment mo d

/-- Process a payload sequence, stopping at the first error or panic. -/
def processPayloads (E : Externals) (mo : MaybeOwned Module) :
    List Payload → Outcome (MaybeOwned Module)
  | [] => .ok mo
  | p :: ps =>
    match stepPayload E mo p with
    | .ok mo' => processPayloads E mo' ps
    | .error e s => .error e s
    | .panic => .panic

/-- The function indices appearing as `ref.func` operands in an operator
sequence. -/
def refFuncsOps : List ConstOp → List Nat
  | [] => []
  | .ref_func idx :: rest => idx :: refFuncsOps rest
  | _ :: rest => refFuncsOps rest

/-- The function indices an element segment mentions: `ref.func` operands of
its offset expression and of its expression entries, and its function-index
entries. -/
def elemOccs (e : Element) : List Nat :=
  (match e.kind with
   | .active _ off => refFuncsOps off
   | _ => []) ++
  (match e.items with
   | .functions fs => fs
   | .expressions _ es => (es.map refFuncsOps).flatten)

/-- The function indices a payload mentions in the sense of the
function-reference invariant: `ref.func` operands in global initializers,
element-segment occurrences, and exported function indices. -/
def payloadOccs : Payload → List Nat
  | .globalP g => refFuncsOps g.init_expr
  | .elementP e => elemOccs e
  | .exportP ex => if ex.kind = ExternalKind.func then [ex.index] else []
  | _ => []

/-- All occurrences over a payload sequence. -/
def payloadsOccs (ps : List Payload) : List Nat := (ps.map payloadOccs).flatten

/-- The export names of a module (the keys of the export map). -/
def exportKeys (l : List (String × EntityType)) : List String := l.map Prod.fst

/-- A concrete default-like feature set for the concrete runs: mutable
globals, bulk memory, extended const and reference types on; gc, threads and
the rest off. -/
def featsDefault : Features :=
  { mutable_global := true
    bulk_memory := true
    gc := false
    extended_const := true
    threads := false
    memory64 := false
    custom_page_sizes := false
    shared_everything_threads := false
    reference_types := true
    multi_memory := false
    function_references := false
    exceptions := false
    stack_switching := false }

/-- A concrete instantiation of the external oracles for the concrete runs:
every type id is a function type with empty results, subtyping is equality,
nothing is shared, every entity has size one, and every value and reference
type is admissible. -/
def E0 : Externals :=
  { isFunc := fun _ => true
    resultsEmpty := fun _ => true
    reftype_is_subtype := fun a b => decide (a = b)
    reftype_is_shared := fun _ => false
    valtype_is_shared := fun _ => false
    size := fun _ => 1
    check_value_type := fun _ _ => true
    feat_check_ref_type := fun _ _ => true }

/-- A concrete module holding one 32-bit memory, one type and one function,
used as the frozen module of the data-segment scenario. -/
def mC1 : Module :=
  { Module.new featsDefault with
      memories := [⟨false, false, 0, none, none⟩]
      types := [0]
      functions := [0] }

/-- A concrete module with one type and one function, used as the starting
module of the accepted-run witnesses. -/
def mW : Module :=
  { Module.new featsDefault with types := [0], functions := [0] }

/-- The payload sequence of the accepted-run witness: a single export of
function 0. -/
def psW : List Payload := [.exportP ⟨"f", .func, 0⟩]

/-- A concrete module with one table of non-null function references. -/
def mT : Module := { mW with tables := [⟨RefTy.FUNC, false, false, 0, none⟩] }

/-- A concrete active element segment naming table 0 with one function
entry. -/
def eW : Element := ⟨.active (some 0) [.i32_const, .end_op], .functions [0]⟩

/-- A concrete module that already exports the name `a`. -/
def mE : Module := { mW with exports := [("a", EntityType.func 0)] }

/-! Helper lemmas about the set insertion. -/

theorem insertRef_mem_self (l : List Nat) (x : Nat) : x ∈ insertRef l x := by
  unfold insertRef
  split
  · assumption
  · exact List.mem_cons_self x l

theorem insertRef_mem_of_mem (l : List Nat) (x y : Nat) (h : y ∈ l) :
    y ∈ insertRef l x := by
  unfold insertRef
  split
  · exact h
  · exact List.mem_cons_of_mem x h

/-- C8 — the `MaybeOwned` ownership handle: `assert_mut` yields the value
exactly in the owned state and panics in the shared state, `as_mut` yields
`none` in the shared state, `deref` yields the value in both the owned and
the shared state, a fresh handle is owned, and `make_shared`/`arc` always
leave the handle in the shared state, so the transient empty state is never
the result of a public transition. -/
theorem c8_maybe_owned_handle :
    ∀ (T : Type) (t : T),
      MaybeOwned.assert_mut (MaybeOwned.owned t) = PRes.ok t ∧
      MaybeOwned.assert_mut (MaybeOwned.shared t) = PRes.panicked ∧
      MaybeOwned.as_mut (MaybeOwned.owned t) = PRes.ok (some t) ∧
      MaybeOwned.as_mut (MaybeOwned.shared t) = PRes.ok none ∧
      MaybeOwned.deref (MaybeOwned.owned t) = PRes.ok t ∧
      MaybeOwned.deref (MaybeOwned.shared t) = PRes.ok t ∧
      MaybeOwned.new t = MaybeOwned.owned t ∧
      MaybeOwned.make_shared (MaybeOwned.owned t) = PRes.ok (MaybeOwned.shared t) ∧
      MaybeOwned.make_shared (MaybeOwned.shared t) = PRes.ok (MaybeOwned.shared t) ∧
      MaybeOwned.arc (MaybeOwned.owned t) = PRes.ok (t, MaybeOwned.shared t) ∧
      MaybeOwned.arc (MaybeOwned.shared t) = PRes.ok (t, MaybeOwned.shared t) ∧
      (∀ (mo r : MaybeOwned T), MaybeOwned.make_shared mo = PRes.ok r →
        ∃ u, r = MaybeOwned.shared u) := by
  intro T t
  refine ⟨rfl, rfl, rfl, rfl, rfl, rfl, rfl, rfl, rfl, rfl, rfl, ?_⟩
  intro mo r h
  cases mo with
  | owned u => exact ⟨u, by simpa [MaybeOwned.make_shared] using h.symm⟩
  | shared u => exact ⟨u, by simpa [MaybeOwned.make_shared] using h.symm⟩
  | empty => simp [MaybeOwned.make_shared] at h

/-- C8 witness: the concluding implication applied at a concrete transition. -/
theorem c8_maybe_owned_handle_witness :
    ∃ u, (MaybeOwned.shared (5 : Nat)) = MaybeOwned.shared u :=
  (c8_maybe_owned_handle Nat 5).2.2.2.2.2.2.2.2.2.2.2
    (MaybeOwned.owned 5) (MaybeOwned.shared 5) rfl

/-- C10 — an active element segment with an absent table index is validated
exactly as one naming table 0: the two runs of `add_element_segment` are
definitionally identical, so the existence, subtyping and offset checks all
target table 0. -/
theorem c10_default_table_index :
    ∀ (E : Externals) (mo : MaybeOwned Module) (off : List ConstOp)
      (items : ElementItems),
      add_element_segment E mo ⟨.active none off, items⟩ =
        add_element_segment E mo ⟨.active (some 0) off, items⟩ := by
  intro E mo off items
  rfl

/-- C3 — `validate_global`: `global.get g` is admitted exactly when global
`g` exists, is immutable, and is either imported or the gc feature is on; a
missing global reports an out-of-bounds error, and a mutable or (without
gc) locally defined global reports a non-constant-operator error. -/
theorem c3_validate_global_charact :
    ∀ (m : Module) (idx : Nat),
      (validate_global m idx = .ok () ↔
        ∃ g, m.globals[idx]? = some g ∧ g.mutable = false ∧
          (idx < m.num_imported_globals ∨ m.features.gc = true)) ∧
      (m.globals[idx]? = none →
        validate_global m idx =
          .error (.outOfBounds "unknown global: global index out of bounds")) ∧
      (∀ g, m.globals[idx]? = some g →
        (g.mutable = true ∨ (m.num_imported_globals ≤ idx ∧ m.features.gc = false)) →
        ∃ s, validate_global m idx = .error (.nonConstantOperator s)) := by
  intro m idx
  refine ⟨?_, ?_, ?_⟩
  · unfold validate_global
    cases hg : m.globals[idx]? with
    | none => simp
    | some g =>
      constructor
      · intro hok
        dsimp only at hok
        by_cases h1 : idx ≥ m.num_imported_globals ∧ ¬ m.features.gc = true
        · rw [if_pos h1] at hok
          exact absurd hok (by simp)
        · rw [if_neg h1] at hok
          by_cases h2 : g.mutable = true
          · rw [if_pos h2] at hok
            exact absurd hok (by simp)
          · refine ⟨g, rfl, by simpa using h2, ?_⟩
            by_cases hlt : idx < m.num_imported_globals
            · exact Or.inl hlt
            · right
              by_contra hgc
              exact h1 ⟨by omega, by simp [hgc]⟩
      · rintro ⟨g', hgg, hmut, hcase⟩
        have hge : g = g' := by injection hgg
        subst hge
        have h1 : ¬ (idx ≥ m.num_imported_globals ∧ ¬ m.features.gc = true) := by
          rintro ⟨ha, hb⟩
          rcases hcase with h | h
          · omega
          · exact hb h
        dsimp only
        rw [if_neg h1, if_neg (by simp [hmut])]
  · intro hnone
    unfold validate_global
    simp [hnone]
  · intro g hg hbad
    unfold validate_global
    rw [hg]
    dsimp only
    by_cases h1 : idx ≥ m.num_imported_globals ∧ ¬ m.features.gc = true
    · rw [if_pos h1]
      exact ⟨_, rfl⟩
    · rw [if_neg h1]
      by_cases h2 : g.mutable = true
      · rw [if_pos h2]
        exact ⟨_, rfl⟩
      · exfalso
        rcases hbad with hbad | hbad
        · exact h2 hbad
        · exact h1 ⟨hbad.1, by simp [hbad.2]⟩

/-- C3 witness: the characterization applied to a concrete module with one
imported immutable global. -/
theorem c3_validate_global_witness :
    validate_global { Module.new featsDefault with
        globals := [⟨ValTy.i32, false, false⟩], num_imported_globals := 1 } 0 = .ok () := by
  have h := (c3_validate_global_charact
    { Module.new featsDefault with
        globals := [⟨ValTy.i32, false, false⟩], num_imported_globals := 1 } 0).1
  exact h.mpr ⟨⟨ValTy.i32, false, false⟩, rfl, rfl, Or.inl (by decide)⟩

/-- C1 — evaluation at the failing input: a data-segment offset expression
containing `ref.func 0`, validated against the already-shared module.
`insert_ref_func` emits no error at the `ref.func` site (it only records
`uninserted_funcref`); the run aborts only later, at `end`, with a type
mismatch — not with the `NonConstantOperator` error the claim requires —
and the claim is saved from a panic only by that deferred failure reaching
the `assert` first. -/
theorem c1_data_segment_ref_func_eval :
    add_data_segment (.shared mC1) ⟨.active 0 [.ref_func 0, .end_op]⟩ =
      .error (.typeMismatch "type mismatch: constant expression result type")
        (.shared mC1) := by
  rfl

/-- C6 — shared memories in `check_memory_type`: a shared memory is
rejected whenever the threads feature is off; with threads on, a shared
memory without a maximum is rejected with an invalid-limits error (given
the unrelated 64-bit and page-size gates pass); and a shared memory with
threads on, a declared maximum and limits within the default page ceiling
is accepted. -/
theorem c6_shared_memory_checks :
    ∀ (m : Module) (ty : MemoryType),
      (ty.shared = true → m.features.threads = false →
        ∃ e, check_memory_type m ty = .error e) ∧
      (ty.shared = true → m.features.threads = true → ty.maximum = none →
        (ty.memory64 = true → m.features.memory64 = true) →
        ty.page_size_log2 = none →
        ∃ s, check_memory_type m ty = .error (.invalidLimits s)) ∧
      (∀ mx, ty.shared = true → m.features.threads = true →
        ty.memory64 = false → ty.page_size_log2 = none →
        ty.maximum = some mx → ty.initial ≤ mx →
        mx ≤ max_wasm_memory32_pages DEFAULT_WASM_PAGE_SIZE →
        check_memory_type m ty = .ok ()) := by
  intro m ty
  refine ⟨?_, ?_, ?_⟩
  · intro hsh hth
    unfold check_memory_type
    cases hcl : check_limits ty.initial ty.maximum with
    | error e => exact ⟨e, rfl⟩
    | ok u =>
      dsimp only
      by_cases h64 : ty.memory64 = true ∧ ¬ m.features.memory64 = true
      · rw [if_pos h64]
        exact ⟨_, rfl⟩
      · rw [if_neg h64, if_pos (by simp [hsh, hth])]
        exact ⟨_, rfl⟩
  · intro hsh hth hmax h64 hpage
    unfold check_memory_type
    have hcl : check_limits ty.initial ty.maximum = .ok () := by
      simp [check_limits, hmax]
    have hps : pageSizeOf m ty = .ok DEFAULT_WASM_PAGE_SIZE := by
      simp [pageSizeOf, hpage]
    rw [hcl]
    dsimp only
    rw [if_neg (by intro h; exact absurd (h64 h.1) h.2),
        if_neg (by simp [hth]), hps]
    dsimp only
    by_cases hinit : ty.initial >
        (if ty.memory64 = true then max_wasm_memory64_pages DEFAULT_WASM_PAGE_SIZE
         else max_wasm_memory32_pages DEFAULT_WASM_PAGE_SIZE)
    · rw [if_pos hinit]
      exact ⟨_, rfl⟩
    · rw [if_neg hinit, hmax]
      dsimp only
      refine ⟨"shared memory must have maximum size", ?_⟩
      unfold sharedMaxCheck
      rw [if_pos (by simp [hsh, hmax])]
  · intro mx hsh hth h64 hpage hmax hinit hceil
    unfold check_memory_type
    have hcl : check_limits ty.initial ty.maximum = .ok () := by
      simp [check_limits, hmax]
      omega
    have hps : pageSizeOf m ty = .ok DEFAULT_WASM_PAGE_SIZE := by
      simp [pageSizeOf, hpage]
    rw [hcl]
    dsimp only
    rw [if_neg (by simp [h64]), if_neg (by simp [hth]), hps]
    dsimp only
    rw [if_neg (by simp [h64]; omega), hmax]
    dsimp only
    rw [if_neg (by simp [h64]; omega)]
    unfold sharedMaxCheck
    rw [if_neg (by simp [hmax])]

/-- C6 witness: the three clauses at concrete memory types. -/
theorem c6_shared_memory_checks_witness :
    (∃ e, check_memory_type (Module.new featsDefault)
        ⟨false, true, 0, some 1, none⟩ = .error e) ∧
    (∃ s, check_memory_type
        (Module.new { featsDefault with threads := true })
        ⟨false, true, 0, none, none⟩ = .error (.invalidLimits s)) ∧
    check_memory_type (Module.new { featsDefault with threads := true })
        ⟨false, true, 1, some 2, none⟩ = .ok () := by
  refine ⟨?_, ?_, ?_⟩
  · exact (c6_shared_memory_checks (Module.new featsDefault)
      ⟨false, true, 0, some 1, none⟩).1 rfl rfl
  · exact (c6_shared_memory_checks
      (Module.new { featsDefault with threads := true })
      ⟨false, true, 0, none, none⟩).2.1 rfl rfl rfl (by intro h; cases h) rfl
  · exact (c6_shared_memory_checks
      (Module.new { featsDefault with threads := true })
      ⟨false, true, 1, some 2, none⟩).2.2 2 rfl rfl rfl rfl rfl
      (by decide) (by decide)

theorem check_heap_type_error_class (m : Module) (h : HeapTy) (e : VError)
    (he : check_heap_type m h = .error e) : ∃ s, e = .outOfBounds s := by
  unfold check_heap_type at he
  split at he
  · split at he
    · cases he
    · exact ⟨_, (Except.error.inj he).symm⟩
  · cases he

theorem check_ref_type_error_class (E : Externals) (m : Module) (ty : RefTy)
    (e : VError) (he : check_ref_type E m ty = .error e) :
    e = .featureDisabled "reference type requires a disabled proposal" ∨
      ∃ s, e = .outOfBounds s := by
  unfold check_ref_type at he
  split at he
  · exact Or.inr (check_heap_type_error_class m ty.heap e he)
  · exact Or.inl (Except.error.inj he).symm

theorem check_value_type_error_class (E : Externals) (m : Module) (ty : ValTy)
    (e : VError) (he : check_value_type E m ty = .error e) :
    e = .featureDisabled "reference type requires a disabled proposal" ∨
      e = .featureDisabled "value type requires a disabled proposal" ∨
      ∃ s, e = .outOfBounds s := by
  unfold check_value_type at he
  split at he
  · rcases check_ref_type_error_class E m _ e he with h | h
    · exact Or.inl h
    · exact Or.inr (Or.inr h)
  · split at he
    · cases he
    · exact Or.inr (Or.inl (Except.error.inj he).symm)

theorem check_global_type_ne_mutable_gate (E : Externals) (m : Module)
    (g : GlobalType) :
    check_global_type E m g ≠
      .error (.featureDisabled "mutable global support is not enabled") := by
  intro hcon
  unfold check_global_type at hcon
  split at hcon
  · rename_i e hv
    have he : e = .featureDisabled "mutable global support is not enabled" :=
      Except.error.inj hcon
    subst he
    rcases check_value_type_error_class E m g.content_type _ hv with h | h | ⟨s, h⟩
    · exact absurd h (by decide)
    · exact absurd h (by decide)
    · exact absurd h (by simp)
  · split at hcon
    · have := Except.error.inj hcon
      exact absurd this (by decide)
    · split at hcon
      · have := Except.error.inj hcon
        exact absurd this (by decide)
      · cases hcon

theorem check_max_error_class (len amt maxv : Nat) (desc : String) (e : VError)
    (h : check_max len amt maxv desc = .error e) : e = .limitExceeded desc := by
  unfold check_max at h
  split at h
  · exact (Except.error.inj h).symm
  · cases h

theorem combine_type_sizes_error_class (a b : Nat) (e : VError)
    (h : combine_type_sizes a b = .error e) :
    e = .limitExceeded "type nesting is too deep" := by
  unfold combine_type_sizes at h
  split at h
  · cases h
  · exact (Except.error.inj h).symm

/-- C7 — the mutable-global feature gate: with the feature off, importing a
mutable global fails with the feature-disabled error (once the global type
itself validates) and exporting a mutable global fails with the same error
unconditionally; with the feature on, neither operation ever produces the
mutable-global rejection. -/
theorem c7_mutable_global_gate :
    ∀ (E : Externals) (m : Module) (g : GlobalType) (mn nm name : String)
      (cl : Bool),
      (m.features.mutable_global = false → g.mutable = true →
        check_global_type E m g = .ok () →
        (add_import E m ⟨mn, nm, .global g⟩).1 =
          .error (.featureDisabled "mutable global support is not enabled")) ∧
      (m.features.mutable_global = false → g.mutable = true →
        (add_export E m name (.global g) cl).1 =
          .error (.featureDisabled "mutable global support is not enabled")) ∧
      (m.features.mutable_global = true →
        (add_import E m ⟨mn, nm, .global g⟩).1 ≠
          .error (.featureDisabled "mutable global support is not enabled") ∧
        (add_export E m name (.global g) cl).1 ≠
          .error (.featureDisabled "mutable global support is not enabled")) := by
  intro E m g mn nm name cl
  refine ⟨?_, ?_, ?_⟩
  · intro hf hm hok
    have hctr : check_type_ref E m (TypeRef.global g) = .ok (.global g) := by
      simp only [check_type_ref, hok]
    simp only [add_import, hctr]
    rw [if_pos (by simp [hf, hm])]
  · intro hf hm
    simp only [add_export]
    rw [if_pos (by simp [hf, isMutableGlobal, hm])]
  · intro hf
    constructor
    · cases hctr : check_type_ref E m (TypeRef.global g) with
      | error e =>
        simp only [add_import, hctr]
        intro hcon
        have he : e = .featureDisabled "mutable global support is not enabled" :=
          Except.error.inj hcon
        subst he
        apply check_global_type_ne_mutable_gate E m g
        simp only [check_type_ref] at hctr
        cases hcg : check_global_type E m g with
        | error e' =>
          rw [hcg] at hctr
          dsimp only at hctr
          have he2 : e' = VError.featureDisabled "mutable global support is not enabled" :=
            Except.error.inj hctr
          rw [he2]
        | ok u =>
          rw [hcg] at hctr
          cases hctr
      | ok ent =>
        simp only [add_import, hctr]
        rw [if_neg (by simp [hf])]
        dsimp only
        split
        · rename_i e2 hmx
          intro hcon
          have := check_max_error_class _ _ _ _ _ hmx
          rw [Except.error.inj hcon] at this
          exact absurd this (by decide)
        · split
          · rename_i e2 hcs
            intro hcon
            have := combine_type_sizes_error_class _ _ _ hcs
            rw [Except.error.inj hcon] at this
            exact absurd this (by decide)
          · simp
    · simp only [add_export]
      rw [if_neg (by simp [hf])]
      split
      · rename_i e2 hsplit
        intro hcon
        have he : e2 = .featureDisabled "mutable global support is not enabled" :=
          Except.error.inj hcon
        subst he
        split at hsplit
        · have := check_max_error_class _ _ _ _ _ hsplit
          exact absurd this (by decide)
        · cases hsplit
      · split
        · rename_i e2 hcs
          intro hcon
          have := combine_type_sizes_error_class _ _ _ hcs
          rw [Except.error.inj hcon] at this
          exact absurd this (by decide)
        · split <;> simp

/-- C7 witness: the gate applied at concrete feature sets. -/
theorem c7_mutable_global_gate_witness :
    (add_export E0 (Module.new { featsDefault with mutable_global := false })
        "g" (.global ⟨ValTy.i32, true, false⟩) true).1 =
      .error (.featureDisabled "mutable global support is not enabled") ∧
    (add_export E0 (Module.new featsDefault)
        "g" (.global ⟨ValTy.i32, true, false⟩) true).1 ≠
      .error (.featureDisabled "mutable global support is not enabled") := by
  constructor
  · exact (c7_mutable_global_gate E0
      (Module.new { featsDefault with mutable_global := false })
      ⟨ValTy.i32, true, false⟩ "m" "n" "g" true).2.1 rfl rfl
  · exact ((c7_mutable_global_gate E0 (Module.new featsDefault)
      ⟨ValTy.i32, true, false⟩ "m" "n" "g" true).2.2 rfl).2

/-- C4 — `add_element_segment`: for an active segment the referenced table
(defaulting to 0) must exist, the element type must be a subtype of the
table's element type (a type-mismatch error otherwise), and the offset
expression must validate as a constant expression of the table's index
type; a passive or declared segment demands the bulk-memory feature. -/
theorem c4_element_segment_checks :
    ∀ (E : Externals) (m : Module) (e : Element),
      (∀ ti off ety, e.kind = .active ti off → elemTyOf E m e.items = .ok ety →
        m.tables[ti.getD 0]? = none →
        add_element_segment E (.owned m) e =
          .error (.outOfBounds "unknown table: table index out of bounds") (.owned m)) ∧
      (∀ ti off ety t, e.kind = .active ti off → elemTyOf E m e.items = .ok ety →
        m.tables[ti.getD 0]? = some t →
        E.reftype_is_subtype ety t.element_type = false →
        add_element_segment E (.owned m) e =
          .error (.typeMismatch "type mismatch: invalid element type for table type")
            (.owned m)) ∧
      (∀ mo' ti off, add_element_segment E (.owned m) e = .ok mo' →
        e.kind = .active ti off →
        ∃ ety t, elemTyOf E m e.items = .ok ety ∧
          m.tables[ti.getD 0]? = some t ∧
          E.reftype_is_subtype ety t.element_type = true ∧
          ∃ mo₁, check_const_expr (.owned m) off t.index_type = .ok mo₁) ∧
      (∀ ety, (e.kind = .passive ∨ e.kind = .declared) →
        elemTyOf E m e.items = .ok ety → m.features.bulk_memory = false →
        add_element_segment E (.owned m) e =
          .error (.featureDisabled "bulk memory must be enabled") (.owned m)) := by
  intro E m e
  refine ⟨?_, ?_, ?_, ?_⟩
  · intro ti off ety hk hty htab
    simp only [add_element_segment, MaybeOwned.deref, hty, hk]
    simp only [table_at, htab]
  · intro ti off ety t hk hty htab hsub
    simp only [add_element_segment, MaybeOwned.deref, hty, hk]
    simp only [table_at, htab]
    rw [if_neg (by simp [hsub])]
  · intro mo' ti off h hk
    simp only [add_element_segment, MaybeOwned.deref, hk] at h
    cases hty : elemTyOf E m e.items with
    | error err => rw [hty] at h; cases h
    | ok ety =>
      rw [hty] at h
      dsimp only at h
      cases htab : m.tables[ti.getD 0]? with
      | none =>
        rw [show table_at m (ti.getD 0) =
          .error (.outOfBounds "unknown table: table index out of bounds") by
            simp [table_at, htab]] at h
        cases h
      | some t =>
        rw [show table_at m (ti.getD 0) = .ok t by simp [table_at, htab]] at h
        dsimp only at h
        by_cases hsub : E.reftype_is_subtype ety t.element_type = true
        · rw [if_pos hsub] at h
          cases hcc : check_const_expr (.owned m) off t.index_type with
          | ok mo₁ => exact ⟨ety, t, rfl, rfl, hsub, mo₁, hcc⟩
          | error err s => rw [hcc] at h; cases h
          | panic => rw [hcc] at h; cases h
        · rw [if_neg hsub] at h
          cases h
  · intro ety hk hty hb
    rcases hk with hk | hk <;>
    · simp only [add_element_segment, MaybeOwned.deref, hty, hk]
      rw [if_neg (by simp [hb])]

/-- C4 witness: the success clause applied to the concrete accepted active
segment over the table of non-null function references. -/
theorem c4_element_segment_checks_witness :
    ∃ mo₁, check_const_expr (.owned mT) [.i32_const, .end_op] ValTy.i32 = .ok mo₁ := by
  obtain ⟨mo', h⟩ : ∃ mo', add_element_segment E0 (.owned mT) eW = .ok mo' := ⟨_, rfl⟩
  obtain ⟨ety, t, hty, htab, hsub, mo₁, hcc⟩ :=
    (c4_element_segment_checks E0 mT eW).2.2.1 mo' (some 0)
      [.i32_const, .end_op] h rfl
  have ht : (⟨RefTy.FUNC, false, false, 0, none⟩ : TableType) = t := by
    simpa [mT, mW, Module.new] using htab
  subst ht
  exact ⟨mo₁, hcc⟩

/-! Helper lemmas for the function-reference invariant: each accepted
constant operator leaves the owned module unchanged except for a grown
`function_references` set. -/

theorem pushV_module (s : CEState) (t : ValTy) (s' : CEState)
    (h : pushV s t = .ok s') : s'.module = s.module := by
  unfold pushV at h
  split at h
  · cases h
  · have hs := Outcome.ok.inj h
    subst hs
    rfl

theorem binopV_module (s : CEState) (t : ValTy) (s' : CEState)
    (h : binopV s t = .ok s') : s'.module = s.module := by
  unfold binopV at h
  split at h
  · cases h
  · split at h
    · split at h
      · have hs := Outcome.ok.inj h
        subst hs
        rfl
      · cases h
    · cases h

theorem refFuncVisit_module (s : CEState) (m : Module) (idx : Nat) (s' : CEState)
    (h : refFuncVisit s m idx = .ok s') : s'.module = s.module := by
  unfold refFuncVisit at h
  split at h
  · cases h
  · split at h
    · have hs := Outcome.ok.inj h
      subst hs
      rfl
    · cases h

theorem visitConstOp_owned (expected : ValTy) (s s' : CEState) (op : ConstOp)
    (m : Module) (h : visitConstOp expected s op = .ok s')
    (hm : s.module = .owned m) :
    ∃ frs, s'.module = .owned { m with function_references := frs } ∧
      (∀ x ∈ m.function_references, x ∈ frs) ∧
      (∀ i, op = .ref_func i → i ∈ frs) := by
  cases op with
  | i32_const =>
    simp only [visitConstOp] at h
    refine ⟨m.function_references, ?_, fun x hx => hx, by intro i hi; cases hi⟩
    rw [pushV_module _ _ _ h, hm]
  | i64_const =>
    simp only [visitConstOp] at h
    refine ⟨m.function_references, ?_, fun x hx => hx, by intro i hi; cases hi⟩
    rw [pushV_module _ _ _ h, hm]
  | f32_const =>
    simp only [visitConstOp] at h
    refine ⟨m.function_references, ?_, fun x hx => hx, by intro i hi; cases hi⟩
    rw [pushV_module _ _ _ h, hm]
  | f64_const =>
    simp only [visitConstOp] at h
    refine ⟨m.function_references, ?_, fun x hx => hx, by intro i hi; cases hi⟩
    rw [pushV_module _ _ _ h, hm]
  | ref_null hh =>
    simp only [visitConstOp] at h
    refine ⟨m.function_references, ?_, fun x hx => hx, by intro i hi; cases hi⟩
    rw [pushV_module _ _ _ h, hm]
  | ref_func idx =>
    simp only [visitConstOp] at h
    rw [hm] at h
    dsimp only at h
    refine ⟨insertRef m.function_references idx, ?_, ?_, ?_⟩
    · rw [refFuncVisit_module _ _ _ _ h]
    · exact fun x hx => insertRef_mem_of_mem _ _ _ hx
    · intro i hi
      cases hi
      exact insertRef_mem_self _ _
  | global_get idx =>
    simp only [visitConstOp] at h
    rw [hm] at h
    simp only [MaybeOwned.deref] at h
    split at h
    · cases h
    · refine ⟨m.function_references, ?_, fun x hx => hx, by intro i hi; cases hi⟩
      rw [pushV_module _ _ _ h, hm]
  | i32_add =>
    simp only [visitConstOp] at h
    split at h
    · cases h
    · refine ⟨m.function_references, ?_, fun x hx => hx, by intro i hi; cases hi⟩
      rw [binopV_module _ _ _ h, hm]
  | i32_sub =>
    simp only [visitConstOp] at h
    split at h
    · cases h
    · refine ⟨m.function_references, ?_, fun x hx => hx, by intro i hi; cases hi⟩
      rw [binopV_module _ _ _ h, hm]
  | i32_mul =>
    simp only [visitConstOp] at h
    split at h
    · cases h
    · refine ⟨m.function_references, ?_, fun x hx => hx, by intro i hi; cases hi⟩
      rw [binopV_module _ _ _ h, hm]
  | i64_add =>
    simp only [visitConstOp] at h
    split at h
    · cases h
    · refine ⟨m.function_references, ?_, fun x hx => hx, by intro i hi; cases hi⟩
      rw [binopV_module _ _ _ h, hm]
  | i64_sub =>
    simp only [visitConstOp] at h
    split at h
    · cases h
    · refine ⟨m.function_references, ?_, fun x hx => hx, by intro i hi; cases hi⟩
      rw [binopV_module _ _ _ h, hm]
  | i64_mul =>
    simp only [visitConstOp] at h
    split at h
    · cases h
    · refine ⟨m.function_references, ?_, fun x hx => hx, by intro i hi; cases hi⟩
      rw [binopV_module _ _ _ h, hm]
  | end_op =>
    simp only [visitConstOp] at h
    split at h
    · cases h
    · split at h
      · have hs := Outcome.ok.inj h
        subst hs
        refine ⟨m.function_references, ?_, fun x hx => hx, by intro i hi; cases hi⟩
        exact congrArg MaybeOwned.owned rfl ▸ hm
      · cases h
  | otherOp name =>
    simp only [visitConstOp] at h
    cases h

theorem refFuncsOps_cons (op : ConstOp) (rest : List ConstOp) (i : Nat)
    (h : i ∈ refFuncsOps (op :: rest)) :
    op = .ref_func i ∨ i ∈ refFuncsOps rest := by
  cases op
  case ref_func j =>
    simp only [refFuncsOps] at h
    rcases List.mem_cons.mp h with h | h
    · subst h
      exact Or.inl rfl
    · exact Or.inr h
  all_goals
    simp only [refFuncsOps] at h
    exact Or.inr h

theorem runConstOps_owned (expected : ValTy) :
    ∀ (l : List ConstOp) (s s' : CEState) (m : Module),
      runConstOps expected l s = .ok s' → s.module = .owned m →
      ∃ frs, s'.module = .owned { m with function_references := frs } ∧
        (∀ x ∈ m.function_references, x ∈ frs) ∧
        (∀ i, i ∈ refFuncsOps l → i ∈ frs) := by
  intro l
  induction l with
  | nil =>
    intro s s' m h hm
    simp only [runConstOps] at h
    have hs := Outcome.ok.inj h
    subst hs
    exact ⟨m.function_references, by rw [hm], fun x hx => hx, by simp [refFuncsOps]⟩
  | cons op rest ih =>
    intro s s' m h hm
    simp only [runConstOps] at h
    cases hv : visitConstOp expected s op with
    | ok s₁ =>
      rw [hv] at h
      obtain ⟨frs₁, hmod₁, hsub₁, hop₁⟩ := visitConstOp_owned expected s s₁ op m hv hm
      obtain ⟨frs₂, hmod₂, hsub₂, hrest₂⟩ := ih s₁ s' _ h hmod₁
      refine ⟨frs₂, ?_, ?_, ?_⟩
      · exact hmod₂
      · intro x hx
        exact hsub₂ x (hsub₁ x hx)
      · intro i hi
        rcases refFuncsOps_cons op rest i hi with hop | hi'
        · exact hsub₂ i (hop₁ i hop)
        · exact hrest₂ i hi'
    | error e s₁ =>
      rw [hv] at h
      cases h
    | panic =>
      rw [hv] at h
      cases h

theorem check_const_expr_owned (m : Module) (expr : List ConstOp)
    (expected : ValTy) (mo' : MaybeOwned Module)
    (h : check_const_expr (.owned m) expr expected = .ok mo') :
    ∃ frs, mo' = .owned { m with function_references := frs } ∧
      (∀ x ∈ m.function_references, x ∈ frs) ∧
      (∀ i, i ∈ refFuncsOps expr → i ∈ frs) := by
  unfold check_const_expr at h
  cases hr : runConstOps expected expr ⟨.owned m, [], false, false⟩ with
  | ok s =>
    rw [hr] at h
    dsimp only at h
    split at h
    · cases h
    · split at h
      · obtain ⟨frs, hmod, hsub, hops⟩ := runConstOps_owned expected expr _ s m hr rfl
        have hmo : s.module = mo' := Outcome.ok.inj h
        exact ⟨frs, by rw [← hmo, hmod], hsub, hops⟩
      · cases h
  | error e s =>
    rw [hr] at h
    cases h
  | panic =>
    rw [hr] at h
    cases h

theorem elemFuncEntries_owned (E : Externals) :
    ∀ (fs : List Nat) (m : Module) (mo' : MaybeOwned Module),
      elemFuncEntries E fs (.owned m) = .ok mo' →
      ∃ frs, mo' = .owned { m with function_references := frs } ∧
        (∀ x ∈ m.function_references, x ∈ frs) ∧
        (∀ i, i ∈ fs → i ∈ frs) := by
  intro fs
  induction fs with
  | nil =>
    intro m mo' h
    simp only [elemFuncEntries] at h
    have hs := Outcome.ok.inj h
    subst hs
    exact ⟨m.function_references, rfl, fun x hx => hx, by simp⟩
  | cons f rest ih =>
    intro m mo' h
    simp only [elemFuncEntries, MaybeOwned.deref] at h
    split at h
    · cases h
    · obtain ⟨frs, hmod, hsub, hmem⟩ := ih _ mo' h
      refine ⟨frs, by rw [hmod], ?_, ?_⟩
      · intro x hx
        exact hsub x (insertRef_mem_of_mem _ _ _ hx)
      · intro i hi
        rcases List.mem_cons.mp hi with hi | hi
        · subst hi
          exact hsub i (insertRef_mem_self _ _)
        · exact hmem i hi

theorem elemExprEntries_owned (ty : RefTy) :
    ∀ (es : List (List ConstOp)) (m : Module) (mo' : MaybeOwned Module),
      elemExprEntries ty es (.owned m) = .ok mo' →
      ∃ frs, mo' = .owned { m with function_references := frs } ∧
        (∀ x ∈ m.function_references, x ∈ frs) ∧
        (∀ i, i ∈ (es.map refFuncsOps).flatten → i ∈ frs) := by
  intro es
  induction es with
  | nil =>
    intro m mo' h
    simp only [elemExprEntries] at h
    have hs := Outcome.ok.inj h
    subst hs
    exact ⟨m.function_references, rfl, fun x hx => hx, by simp⟩
  | cons e rest ih =>
    intro m mo' h
    simp only [elemExprEntries] at h
    cases hc : check_const_expr (.owned m) e (ValTy.ref ty) with
    | ok mo₁ =>
      rw [hc] at h
      obtain ⟨frs₁, hmo₁, hsub₁, hops₁⟩ := check_const_expr_owned m e _ mo₁ hc
      subst hmo₁
      obtain ⟨frs₂, hmod₂, hsub₂, hmem₂⟩ := ih _ mo' h
      refine ⟨frs₂, by rw [hmod₂], ?_, ?_⟩
      · intro x hx
        exact hsub₂ x (hsub₁ x hx)
      · intro i hi
        simp only [List.map_cons, List.flatten_cons, List.mem_append] at hi
        rcases hi with hi | hi
        · exact hsub₂ i (hops₁ i hi)
        · exact hmem₂ i (by simpa using hi)
    | error err mo₁ =>
      rw [hc] at h
      cases h
    | panic =>
      rw [hc] at h
      cases h

/-! Helper lemmas about the export index map. -/

theorem insertExport_none (l : List (String × EntityType)) (n : String)
    (t : EntityType) (h : (insertExport l n t).1 = none) :
    n ∉ exportKeys l ∧ (insertExport l n t).2 = l ++ [(n, t)] := by
  induction l with
  | nil => simp [insertExport, exportKeys]
  | cons p rest ih =>
    obtain ⟨k, v⟩ := p
    by_cases hk : k = n
    · simp [insertExport, hk] at h
    · simp only [insertExport, if_neg hk] at h ⊢
      obtain ⟨h1, h2⟩ := ih h
      constructor
      · intro hmem
        simp only [exportKeys, List.map_cons, List.mem_cons] at hmem
        rcases hmem with hmem | hmem
        · exact hk hmem.symm
        · exact h1 hmem
      · simp [h2]

theorem insertExport_not_mem (l : List (String × EntityType)) (n : String)
    (t : EntityType) (h : n ∉ exportKeys l) :
    insertExport l n t = (none, l ++ [(n, t)]) := by
  induction l with
  | nil => simp [insertExport]
  | cons p rest ih =>
    obtain ⟨k, v⟩ := p
    have hk : ¬ k = n := by
      intro he
      exact h (by simp [exportKeys, he])
    have hrest : n ∉ exportKeys rest := by
      intro hm
      exact h (by simp only [exportKeys, List.map_cons, List.mem_cons]; exact Or.inr hm)
    simp only [insertExport, if_neg hk, ih hrest]
    simp

theorem insertExport_mem (l : List (String × EntityType)) (n : String)
    (t : EntityType) (h : n ∈ exportKeys l) :
    ∃ v, (insertExport l n t).1 = some v := by
  induction l with
  | nil => simp [exportKeys] at h
  | cons p rest ih =>
    obtain ⟨k, v⟩ := p
    by_cases hk : k = n
    · exact ⟨v, by simp [insertExport, hk]⟩
    · have hrest : n ∈ exportKeys rest := by
        simp only [exportKeys, List.map_cons, List.mem_cons] at h
        rcases h with h | h
        · exact absurd h.symm hk
        · exact h
      obtain ⟨w, hw⟩ := ih hrest
      exact ⟨w, by simp [insertExport, hk, hw]⟩

theorem exportKeys_append_nodup (l : List (String × EntityType)) (n : String)
    (t : EntityType) (hn : n ∉ exportKeys l) (hd : (exportKeys l).Nodup) :
    (exportKeys (l ++ [(n, t)])).Nodup := by
  unfold exportKeys at *
  rw [List.map_append]
  simp only [List.map_cons, List.map_nil]
  rw [List.nodup_append]
  refine ⟨hd, List.nodup_singleton n, ?_⟩
  intro x hx hx2
  simp only [List.mem_singleton] at hx2
  subst hx2
  exact hn hx

/-! Field-preservation lemmas: the operations that never touch the
function-reference set or the export map. -/

theorem add_type_ids_fields (m : Module) (ids : List Nat) :
    (add_type_ids m ids).2.function_references = m.function_references ∧
    (add_type_ids m ids).2.exports = m.exports := by
  unfold add_type_ids
  split <;> simp

theorem add_function_fields (E : Externals) (m : Module) (t : Nat) :
    (add_function E m t).2.function_references = m.function_references ∧
    (add_function E m t).2.exports = m.exports := by
  unfold add_function
  split <;> simp

theorem add_memory_fields (m : Module) (ty : MemoryType) :
    (add_memory m ty).2.function_references = m.function_references ∧
    (add_memory m ty).2.exports = m.exports := by
  unfold add_memory
  split <;> simp

theorem add_tag_fields (E : Externals) (m : Module) (t : Nat) :
    (add_tag E m t).2.function_references = m.function_references ∧
    (add_tag E m t).2.exports = m.exports := by
  unfold add_tag
  split <;> simp

theorem add_import_fields (E : Externals) (m : Module) (imp : Import) :
    (add_import E m imp).2.function_references = m.function_references ∧
    (add_import E m imp).2.exports = m.exports := by
  obtain ⟨mn, nm, ity⟩ := imp
  unfold add_import
  cases hct : check_type_ref E m ity with
  | error e => simp
  | ok entity =>
    dsimp only
    cases ity with
    | func ti =>
      dsimp only
      constructor <;> (repeat' split) <;> rfl
    | table t =>
      dsimp only
      constructor <;> (repeat' split) <;> rfl
    | memory t =>
      dsimp only
      constructor <;> (repeat' split) <;> rfl
    | tag t =>
      dsimp only
      constructor <;> (repeat' split) <;> rfl
    | global g =>
      dsimp only
      by_cases hg : ¬ m.features.mutable_global = true ∧ g.mutable = true
      · rw [if_pos hg]
        simp
      · rw [if_neg hg]
        dsimp only
        constructor <;> (repeat' split) <;> rfl

theorem liftMut_ok_state (m : Module) (f : Module → Except VError Unit × Module)
    (mo' : MaybeOwned Module) (h : liftMut (.owned m) f = .ok mo') :
    mo' = .owned (f m).2 := by
  unfold liftMut at h
  dsimp only at h
  cases hf : f m with
  | mk r m₂ =>
    rw [hf] at h
    cases r with
    | ok u =>
      dsimp only at h
      exact (Outcome.ok.inj h).symm
    | error e =>
      dsimp only at h
      cases h

theorem add_global_owned (E : Externals) (m : Module) (g : Global)
    (mo' : MaybeOwned Module) (h : add_global E (.owned m) g = .ok mo') :
    ∃ frs, mo' = .owned { m with
        globals := m.globals ++ [g.ty]
        function_references := frs } ∧
      (∀ x ∈ m.function_references, x ∈ frs) ∧
      (∀ i, i ∈ refFuncsOps g.init_expr → i ∈ frs) := by
  unfold add_global at h
  dsimp only [MaybeOwned.deref] at h
  split at h
  · cases h
  · cases hc : check_const_expr (.owned m) g.init_expr g.ty.content_type with
    | ok mo₁ =>
      rw [hc] at h
      obtain ⟨frs, hmo₁, hsub, hops⟩ := check_const_expr_owned m g.init_expr _ mo₁ hc
      subst hmo₁
      dsimp only at h
      refine ⟨frs, ?_, hsub, hops⟩
      rw [← Outcome.ok.inj h]
    | error e mo₁ =>
      rw [hc] at h
      cases h
    | panic =>
      rw [hc] at h
      cases h

theorem add_table_owned (E : Externals) (m : Module) (t : TableEntry)
    (mo' : MaybeOwned Module) (h : add_table E (.owned m) t = .ok mo') :
    ∃ frs, mo' = .owned { m with
        tables := m.tables ++ [t.ty]
        function_references := frs } ∧
      (∀ x ∈ m.function_references, x ∈ frs) := by
  unfold add_table at h
  dsimp only [MaybeOwned.deref] at h
  split at h
  · cases h
  · cases hi : t.init with
    | refNull =>
      rw [hi] at h
      dsimp only at h
      split at h
      · cases h
      · refine ⟨m.function_references, ?_, fun x hx => hx⟩
        rw [← Outcome.ok.inj h]
    | initExpr e =>
      rw [hi] at h
      dsimp only at h
      split at h
      · cases h
      · cases hc : check_const_expr (.owned m) e (ValTy.ref t.ty.element_type) with
        | ok mo₁ =>
          rw [hc] at h
          obtain ⟨frs, hmo₁, hsub, _⟩ := check_const_expr_owned m e _ mo₁ hc
          subst hmo₁
          dsimp only at h
          refine ⟨frs, ?_, hsub⟩
          rw [← Outcome.ok.inj h]
        | error e2 mo₁ =>
          rw [hc] at h
          cases h
        | panic =>
          rw [hc] at h
          cases h

theorem add_data_segment_owned (m : Module) (d : DataSeg)
    (mo' : MaybeOwned Module) (h : add_data_segment (.owned m) d = .ok mo') :
    ∃ frs, mo' = .owned { m with function_references := frs } ∧
      (∀ x ∈ m.function_references, x ∈ frs) := by
  unfold add_data_segment at h
  dsimp only [MaybeOwned.deref] at h
  cases hk : d.kind with
  | passive =>
    rw [hk] at h
    dsimp only at h
    split at h
    · cases h
    · refine ⟨m.function_references, ?_, fun x hx => hx⟩
      rw [← Outcome.ok.inj h]
  | active mi off =>
    rw [hk] at h
    dsimp only at h
    split at h
    · cases h
    · obtain ⟨frs, hmo, hsub, _⟩ := check_const_expr_owned m off _ mo' h
      exact ⟨frs, hmo, hsub⟩

theorem export_to_entity_type_fields (m : Module) (ex : Export)
    (ty : EntityType) (m₁ : Module)
    (h : export_to_entity_type m ex = .ok (ty, m₁)) :
    m₁.exports = m.exports ∧
    (∀ x ∈ m.function_references, x ∈ m₁.function_references) ∧
    (ex.kind = .func → ex.index ∈ m₁.function_references) := by
  unfold export_to_entity_type at h
  cases hk : ex.kind with
  | func =>
    rw [hk] at h
    dsimp only at h
    split at h
    · have hm₁ : ({ m with function_references := insertRef m.function_references ex.index } : Module) = m₁ :=
        congrArg Prod.snd (Except.ok.inj h)
      subst hm₁
      exact ⟨rfl, fun x hx => insertRef_mem_of_mem _ _ _ hx,
        fun _ => insertRef_mem_self _ _⟩
    · cases h
  | table =>
    rw [hk] at h
    dsimp only at h
    split at h
    · have hm₁ : m = m₁ := congrArg Prod.snd (Except.ok.inj h)
      subst hm₁
      exact ⟨rfl, fun x hx => hx, fun hf => nomatch hf⟩
    · cases h
  | memory =>
    rw [hk] at h
    dsimp only at h
    split at h
    · have hm₁ : m = m₁ := congrArg Prod.snd (Except.ok.inj h)
      subst hm₁
      exact ⟨rfl, fun x hx => hx, fun hf => nomatch hf⟩
    · cases h
  | global =>
    rw [hk] at h
    dsimp only at h
    split at h
    · have hm₁ : m = m₁ := congrArg Prod.snd (Except.ok.inj h)
      subst hm₁
      exact ⟨rfl, fun x hx => hx, fun hf => nomatch hf⟩
    · cases h
  | tag =>
    rw [hk] at h
    dsimp only at h
    split at h
    · have hm₁ : m = m₁ := congrArg Prod.snd (Except.ok.inj h)
      subst hm₁
      exact ⟨rfl, fun x hx => hx, fun hf => nomatch hf⟩
    · cases h

theorem add_export_ok_fields (E : Externals) (m : Module) (name : String)
    (ty : EntityType) (cl : Bool)
    (h : (add_export E m name ty cl).1 = .ok ()) :
    (add_export E m name ty cl).2.function_references = m.function_references ∧
    ((exportKeys m.exports).Nodup →
      (exportKeys (add_export E m name ty cl).2.exports).Nodup) := by
  unfold add_export at h ⊢
  by_cases h1 : ¬ m.features.mutable_global = true ∧ isMutableGlobal ty = true
  · rw [if_pos h1] at h
    cases h
  · rw [if_neg h1] at h ⊢
    cases hcm : (if cl = true then check_max m.exports.length 1 MAX_WASM_EXPORTS "exports"
                 else (.ok () : Except VError Unit)) with
    | error e =>
      rw [hcm] at h
      dsimp only at h
      cases h
    | ok u =>
      rw [hcm] at h
      dsimp only at h ⊢
      cases hcs : combine_type_sizes m.type_size (E.size ty) with
      | error e =>
        rw [hcs] at h
        dsimp only at h
        cases h
      | ok ts =>
        rw [hcs] at h
        dsimp only at h ⊢
        cases hie : (insertExport m.exports name ty).1 with
        | some v =>
          rw [hie] at h
          dsimp only at h
          cases h
        | none =>
          dsimp only at h ⊢
          obtain ⟨hnmem, happ⟩ := insertExport_none m.exports name ty hie
          rw [happ]
          exact ⟨rfl, fun hd => exportKeys_append_nodup _ _ _ hnmem hd⟩

theorem export_step_owned (E : Externals) (m : Module) (ex : Export)
    (mo' : MaybeOwned Module) (h : export_step E (.owned m) ex = .ok mo') :
    ∃ m₂, mo' = .owned m₂ ∧
      (∀ x ∈ m.function_references, x ∈ m₂.function_references) ∧
      (ex.kind = .func → ex.index ∈ m₂.function_references) ∧
      ((exportKeys m.exports).Nodup → (exportKeys m₂.exports).Nodup) := by
  unfold export_step at h
  dsimp only at h
  cases he : export_to_entity_type m ex with
  | error e =>
    rw [he] at h
    cases h
  | ok p =>
    obtain ⟨ty, m₁⟩ := p
    rw [he] at h
    dsimp only at h
    cases ha : add_export E m₁ ex.name ty true with
    | mk r m₂ =>
      rw [ha] at h
      cases r with
      | error e =>
        dsimp only at h
        cases h
      | ok u =>
        dsimp only at h
        obtain ⟨hexp₁, hsub₁, hfunc₁⟩ := export_to_entity_type_fields m ex ty m₁ he
        have hok1 : (add_export E m₁ ex.name ty true).1 = .ok () := by
          rw [ha]
        obtain ⟨hfrs₂, hnd₂⟩ := add_export_ok_fields E m₁ ex.name ty true hok1
        rw [ha] at hfrs₂ hnd₂
        dsimp only at hfrs₂ hnd₂
        refine ⟨m₂, (Outcome.ok.inj h).symm, ?_, ?_, ?_⟩
        · intro x hx
          rw [hfrs₂]
          exact hsub₁ x hx
        · intro hf
          rw [hfrs₂]
          exact hfunc₁ hf
        · intro hd
          rw [hexp₁] at hnd₂
          exact hnd₂ hd

theorem elemItems_stage (E : Externals) (items : ElementItems) (m : Module)
    (mo' : MaybeOwned Module)
    (h : (match items with
          | .functions fs => elemFuncEntries E fs (.owned m)
          | .expressions ty es => elemExprEntries ty es (.owned m)) = .ok mo') :
    ∃ frs, mo' = .owned { m with function_references := frs } ∧
      (∀ x ∈ m.function_references, x ∈ frs) ∧
      (∀ i, i ∈ (match items with
                 | .functions fs => fs
                 | .expressions _ es => (es.map refFuncsOps).flatten) → i ∈ frs) := by
  cases items with
  | functions fs => exact elemFuncEntries_owned E fs m mo' h
  | expressions ty es => exact elemExprEntries_owned ty es m mo' h

theorem elemFinish_owned (E : Externals) (e_items : ElementItems) (ety : RefTy)
    (m₁ : Module) (mo' : MaybeOwned Module)
    (h : (if elemCount e_items > MAX_WASM_TABLE_ENTRIES then
            Outcome.error (.limitExceeded "number of elements is out of bounds") (.owned m₁)
          else
            match (match e_items with
                   | .functions fs => elemFuncEntries E fs (.owned m₁)
                   | .expressions ty es => elemExprEntries ty es (.owned m₁)) with
            | .panic => .panic
            | .error err mo₂ => .error err mo₂
            | .ok mo₂ =>
              match mo₂ with
              | .owned m₂ =>
                Outcome.ok (MaybeOwned.owned
                  { m₂ with element_types := m₂.element_types ++ [ety] })
              | _ => .panic) = .ok mo') :
    ∃ frs₂, mo' = .owned { m₁ with
        element_types := m₁.element_types ++ [ety]
        function_references := frs₂ } ∧
      (∀ x ∈ m₁.function_references, x ∈ frs₂) ∧
      (∀ i, i ∈ (match e_items with
                 | .functions fs => fs
                 | .expressions _ es => (es.map refFuncsOps).flatten) → i ∈ frs₂) := by
  split at h
  · cases h
  · cases hit : (match e_items with
                 | .functions fs => elemFuncEntries E fs (.owned m₁)
                 | .expressions ty es => elemExprEntries ty es (.owned m₁)) with
    | ok mo₂ =>
      rw [hit] at h
      obtain ⟨frs₂, hmo₂, hsub₂, hmem₂⟩ := elemItems_stage E e_items m₁ mo₂ hit
      subst hmo₂
      dsimp only at h
      exact ⟨frs₂, by rw [← Outcome.ok.inj h], hsub₂, hmem₂⟩
    | error err mo₂ =>
      rw [hit] at h
      cases h
    | panic =>
      rw [hit] at h
      cases h

theorem add_element_segment_owned (E : Externals) (m : Module) (e : Element)
    (mo' : MaybeOwned Module)
    (h : add_element_segment E (.owned m) e = .ok mo') :
    ∃ frs ety, mo' = .owned { m with
        element_types := m.element_types ++ [ety]
        function_references := frs } ∧
      (∀ x ∈ m.function_references, x ∈ frs) ∧
      (∀ i, i ∈ elemOccs e → i ∈ frs) := by
  unfold add_element_segment at h
  dsimp only [MaybeOwned.deref] at h
  cases hty : elemTyOf E m e.items with
  | error err =>
    rw [hty] at h
    cases h
  | ok ety =>
    rw [hty] at h
    dsimp only at h
    cases hk : e.kind with
    | active ti off =>
      rw [hk] at h
      dsimp only at h
      cases htab : table_at m (ti.getD 0) with
      | error err =>
        rw [htab] at h
        cases h
      | ok t =>
        rw [htab] at h
        dsimp only at h
        by_cases hsub : E.reftype_is_subtype ety t.element_type = true
        · rw [if_pos hsub] at h
          cases hcc : check_const_expr (.owned m) off t.index_type with
          | ok mo₁ =>
            rw [hcc] at h
            obtain ⟨frs₁, hmo₁, hsub₁, hops₁⟩ :=
              check_const_expr_owned m off _ mo₁ hcc
            subst hmo₁
            dsimp only at h
            obtain ⟨frs₂, hmo', hsub₂, hmem₂⟩ := elemFinish_owned E e.items ety _ mo' h
            refine ⟨frs₂, ety, hmo', ?_, ?_⟩
            · intro x hx
              exact hsub₂ x (hsub₁ x hx)
            · intro i hi
              simp only [elemOccs, hk, List.mem_append] at hi
              rcases hi with hi | hi
              · exact hsub₂ i (hops₁ i hi)
              · exact hmem₂ i hi
          | error err mo₁ =>
            rw [hcc] at h
            cases h
          | panic =>
            rw [hcc] at h
            cases h
        · rw [if_neg hsub] at h
          cases h
    | passive =>
      rw [hk] at h
      dsimp only at h
      split at h
      · cases h
      · cases h
      · rename_i mo₁ heq
        split at heq
        · have hmo₁ : MaybeOwned.owned m = mo₁ := Outcome.ok.inj heq
          subst hmo₁
          obtain ⟨frs₂, hmo', hsub₂, hmem₂⟩ := elemFinish_owned E e.items ety m mo' h
          refine ⟨frs₂, ety, hmo', hsub₂, ?_⟩
          intro i hi
          simp only [elemOccs, hk, List.nil_append] at hi
          exact hmem₂ i hi
        · cases heq
    | declared =>
      rw [hk] at h
      dsimp only at h
      split at h
      · cases h
      · cases h
      · rename_i mo₁ heq
        split at heq
        · have hmo₁ : MaybeOwned.owned m = mo₁ := Outcome.ok.inj heq
          subst hmo₁
          obtain ⟨frs₂, hmo', hsub₂, hmem₂⟩ := elemFinish_owned E e.items ety m mo' h
          refine ⟨frs₂, ety, hmo', hsub₂, ?_⟩
          intro i hi
          simp only [elemOccs, hk, List.nil_append] at hi
          exact hmem₂ i hi
        · cases heq

theorem stepPayload_inv (E : Externals) (m : Module) (p : Payload)
    (mo' : MaybeOwned Module) (h : stepPayload E (.owned m) p = .ok mo') :
    ∃ m', mo' = .owned m' ∧
      (∀ x ∈ m.function_references, x ∈ m'.function_references) ∧
      (∀ i, i ∈ payloadOccs p → i ∈ m'.function_references) ∧
      ((exportKeys m.exports).Nodup → (exportKeys m'.exports).Nodup) := by
  cases p with
  | typeP ids =>
    simp only [stepPayload] at h
    have hst := liftMut_ok_state m _ mo' h
    refine ⟨_, hst, ?_, ?_, ?_⟩
    · rw [(add_type_ids_fields m ids).1]
      exact fun x hx => hx
    · intro i hi
      exact absurd hi (List.not_mem_nil i)
    · rw [(add_type_ids_fields m ids).2]
      exact id
  | importP imp =>
    simp only [stepPayload] at h
    have hst := liftMut_ok_state m _ mo' h
    refine ⟨_, hst, ?_, ?_, ?_⟩
    · rw [(add_import_fields E m imp).1]
      exact fun x hx => hx
    · intro i hi
      exact absurd hi (List.not_mem_nil i)
    · rw [(add_import_fields E m imp).2]
      exact id
  | functionP t =>
    simp only [stepPayload] at h
    have hst := liftMut_ok_state m _ mo' h
    refine ⟨_, hst, ?_, ?_, ?_⟩
    · rw [(add_function_fields E m t).1]
      exact fun x hx => hx
    · intro i hi
      exact absurd hi (List.not_mem_nil i)
    · rw [(add_function_fields E m t).2]
      exact id
  | memoryP ty =>
    simp only [stepPayload] at h
    have hst := liftMut_ok_state m _ mo' h
    refine ⟨_, hst, ?_, ?_, ?_⟩
    · rw [(add_memory_fields m ty).1]
      exact fun x hx => hx
    · intro i hi
      exact absurd hi (List.not_mem_nil i)
    · rw [(add_memory_fields m ty).2]
      exact id
  | tagP t =>
    simp only [stepPayload] at h
    have hst := liftMut_ok_state m _ mo' h
    refine ⟨_, hst, ?_, ?_, ?_⟩
    · rw [(add_tag_fields E m t).1]
      exact fun x hx => hx
    · intro i hi
      exact absurd hi (List.not_mem_nil i)
    · rw [(add_tag_fields E m t).2]
      exact id
  | tableP t =>
    obtain ⟨frs, hmo, hsub⟩ := add_table_owned E m t mo' h
    refine ⟨_, hmo, hsub, ?_, id⟩
    intro i hi
    exact absurd hi (List.not_mem_nil i)
  | globalP g =>
    obtain ⟨frs, hmo, hsub, hops⟩ := add_global_owned E m g mo' h
    exact ⟨_, hmo, hsub, hops, id⟩
  | exportP ex =>
    obtain ⟨m₂, hmo, hsub, hfunc, hnd⟩ := export_step_owned E m ex mo' h
    refine ⟨m₂, hmo, hsub, ?_, hnd⟩
    intro i hi
    simp only [payloadOccs] at hi
    split at hi
    · rename_i hk
      rw [List.mem_singleton] at hi
      subst hi
      exact hfunc hk
    · exact absurd hi (List.not_mem_nil i)
  | elementP e =>
    obtain ⟨frs, ety, hmo, hsub, hocc⟩ := add_element_segment_owned E m e mo' h
    exact ⟨_, hmo, hsub, hocc, id⟩
  | dataP d =>
    obtain ⟨frs, hmo, hsub⟩ := add_data_segment_owned m d mo' h
    refine ⟨_, hmo, hsub, ?_, id⟩
    intro i hi
    exact absurd hi (List.not_mem_nil i)

theorem processPayloads_inv (E : Externals) :
    ∀ (ps : List Payload) (m : Module) (mo' : MaybeOwned Module),
      processPayloads E (.owned m) ps = .ok mo' →
      ∃ m', mo' = .owned m' ∧
        (∀ x ∈ m.function_references, x ∈ m'.function_references) ∧
        (∀ i, i ∈ payloadsOccs ps → i ∈ m'.function_references) ∧
        ((exportKeys m.exports).Nodup → (exportKeys m'.exports).Nodup) := by
  intro ps
  induction ps with
  | nil =>
    intro m mo' h
    simp only [processPayloads] at h
    exact ⟨m, (Outcome.ok.inj h).symm, fun x hx => hx,
      by intro i hi; exact absurd hi (List.not_mem_nil i), id⟩
  | cons p rest ih =>
    intro m mo' h
    simp only [processPayloads] at h
    cases hs : stepPayload E (.owned m) p with
    | ok mo₁ =>
      rw [hs] at h
      obtain ⟨m₁, hmo₁, hsub₁, hocc₁, hnd₁⟩ := stepPayload_inv E m p mo₁ hs
      subst hmo₁
      obtain ⟨m', hmo', hsub', hocc', hnd'⟩ := ih m₁ mo' h
      refine ⟨m', hmo', ?_, ?_, fun hd => hnd' (hnd₁ hd)⟩
      · intro x hx
        exact hsub' x (hsub₁ x hx)
      · intro i hi
        simp only [payloadsOccs, List.map_cons, List.flatten_cons,
          List.mem_append] at hi
        rcases hi with hi | hi
        · exact hsub' i (hocc₁ i hi)
        · exact hocc' i (by simpa [payloadsOccs] using hi)
    | error e s =>
      rw [hs] at h
      cases h
    | panic =>
      rw [hs] at h
      cases h

/-- C2 — the function-reference invariant: after any accepted payload
sequence, every function index occurring as a `ref.func` operand in a global
or element-segment initializer, as a function-index entry of an element
segment, or as an exported function index, is a member of the final module's
`function_references` set. -/
theorem c2_function_references_recorded :
    ∀ (E : Externals) (m : Module) (ps : List Payload)
      (mo' : MaybeOwned Module) (f : Nat),
      processPayloads E (.owned m) ps = .ok mo' →
      f ∈ payloadsOccs ps →
      ∃ m', mo' = .owned m' ∧ f ∈ m'.function_references := by
  intro E m ps mo' f h hf
  obtain ⟨m', hmo, _, hocc, _⟩ := processPayloads_inv E ps m mo' h
  exact ⟨m', hmo, hocc f hf⟩

/-- C2 witness: the accepted run exporting function 0 records 0 in the
function-reference set. -/
theorem c2_function_references_recorded_witness :
    ∃ mo' m', processPayloads E0 (.owned mW) psW = .ok mo' ∧
      mo' = .owned m' ∧ 0 ∈ m'.function_references := by
  obtain ⟨mo', h⟩ : ∃ mo', processPayloads E0 (.owned mW) psW = .ok mo' := ⟨_, rfl⟩
  obtain ⟨m', hmo, hin⟩ :=
    c2_function_references_recorded E0 mW psW mo' 0 h (by decide)
  exact ⟨mo', m', h, hmo, hin⟩

/-- C5 — export-name uniqueness: with the unrelated gates passing,
`add_export` fails with the duplicate-export error exactly when the name is
already present and otherwise registers the export at the end of the map;
consequently every accepted payload sequence preserves distinctness of the
export names. -/
theorem c5_export_name_uniqueness :
    (∀ (E : Externals) (m : Module) (name : String) (ty : EntityType) (cl : Bool),
      ¬ (m.features.mutable_global = false ∧ isMutableGlobal ty = true) →
      (cl = true → m.exports.length + 1 ≤ MAX_WASM_EXPORTS) →
      m.type_size + E.size ty ≤ MAX_TYPE_SIZE →
      ((name ∈ exportKeys m.exports →
          (add_export E m name ty cl).1 = .error (.duplicateExport name)) ∧
       (name ∉ exportKeys m.exports →
          (add_export E m name ty cl).1 = .ok () ∧
          (add_export E m name ty cl).2.exports = m.exports ++ [(name, ty)]))) ∧
    (∀ (E : Externals) (m : Module) (ps : List Payload) (mo' : MaybeOwned Module),
      processPayloads E (.owned m) ps = .ok mo' →
      (exportKeys m.exports).Nodup →
      ∃ m', mo' = .owned m' ∧ (exportKeys m'.exports).Nodup) := by
  constructor
  · intro E m name ty cl hgate hlim hsize
    have hgate' : ¬ (¬ m.features.mutable_global = true ∧ isMutableGlobal ty = true) := by
      intro hc
      exact hgate ⟨by simpa using hc.1, hc.2⟩
    have hcm : (if cl = true then check_max m.exports.length 1 MAX_WASM_EXPORTS "exports"
                else (.ok () : Except VError Unit)) = .ok () := by
      cases cl with
      | false => rfl
      | true =>
        have hl := hlim rfl
        have hlt : ¬ MAX_WASM_EXPORTS < m.exports.length + 1 := by omega
        show check_max m.exports.length 1 MAX_WASM_EXPORTS "exports" = .ok ()
        unfold check_max
        rw [if_neg hlt]
    have hcs : combine_type_sizes m.type_size (E.size ty) =
        .ok (m.type_size + E.size ty) := by
      unfold combine_type_sizes
      rw [if_pos hsize]
    constructor
    · intro hmem
      obtain ⟨v, hv⟩ := insertExport_mem m.exports name ty hmem
      simp only [add_export]
      rw [if_neg hgate', hcm]
      dsimp only
      rw [hcs]
      dsimp only
      rw [hv]
    · intro hnmem
      have hnone := insertExport_not_mem m.exports name ty hnmem
      simp only [add_export]
      rw [if_neg hgate', hcm]
      dsimp only
      rw [hcs]
      dsimp only
      rw [hnone]
      dsimp only
      exact ⟨rfl, rfl⟩
  · intro E m ps mo' h hd
    obtain ⟨m', hmo, _, _, hnd⟩ := processPayloads_inv E ps m mo' h
    exact ⟨m', hmo, hnd hd⟩

/-- C5 witness: a duplicate name is rejected and a fresh one is registered
on the concrete module that already exports the name `a`. -/
theorem c5_export_name_uniqueness_witness :
    (add_export E0 mE "a" (EntityType.func 0) true).1 =
      .error (.duplicateExport "a") ∧
    (add_export E0 mE "b" (EntityType.func 0) true).1 = .ok () := by
  have h := c5_export_name_uniqueness.1 E0 mE "a" (EntityType.func 0) true
    (by decide) (fun _ => by decide) (by decide)
  have h2 := c5_export_name_uniqueness.1 E0 mE "b" (EntityType.func 0) true
    (by decide) (fun _ => by decide) (by decide)
  exact ⟨h.1 (by decide), (h2.2 (by decide)).1⟩

/-- C9 — a duplicate-name function export fails only after mutating the
module: the returned state has `type_size` increased by the export's type
size and the exported function index already inserted into
`function_references` by `export_to_entity_type`. -/
theorem c9_duplicate_export_mutates_state :
    ∀ (E : Externals) (m : Module) (ex : Export),
      ex.kind = .func →
      ex.index < m.functions.length →
      ex.name ∈ exportKeys m.exports →
      m.exports.length + 1 ≤ MAX_WASM_EXPORTS →
      m.type_size + E.size (.func (m.types.getD (m.functions.getD ex.index 0) 0)) ≤
        MAX_TYPE_SIZE →
      ∃ m₂, export_step E (.owned m) ex =
          .error (.duplicateExport ex.name) (.owned m₂) ∧
        m₂.type_size = m.type_size +
          E.size (.func (m.types.getD (m.functions.getD ex.index 0) 0)) ∧
        ex.index ∈ m₂.function_references := by
  intro E m ex hk hidx hdup hlim hsize
  obtain ⟨v, hv⟩ := insertExport_mem m.exports ex.name
    (.func (m.types.getD (m.functions.getD ex.index 0) 0)) hdup
  have hee : export_to_entity_type m ex =
      .ok (.func (m.types.getD (m.functions.getD ex.index 0) 0),
        { m with function_references := insertRef m.function_references ex.index }) := by
    unfold export_to_entity_type
    rw [hk]
    dsimp only
    rw [if_pos hidx]
  have hcm : check_max m.exports.length 1 MAX_WASM_EXPORTS "exports" =
      (.ok () : Except VError Unit) := by
    have hlt : ¬ MAX_WASM_EXPORTS < m.exports.length + 1 := by omega
    unfold check_max
    rw [if_neg hlt]
  have hcs : combine_type_sizes m.type_size
      (E.size (.func (m.types.getD (m.functions.getD ex.index 0) 0))) =
      .ok (m.type_size +
        E.size (.func (m.types.getD (m.functions.getD ex.index 0) 0))) := by
    unfold combine_type_sizes
    rw [if_pos hsize]
  refine ⟨{ m with
      function_references := insertRef m.function_references ex.index
      type_size := m.type_size +
        E.size (.func (m.types.getD (m.functions.getD ex.index 0) 0))
      exports := (insertExport m.exports ex.name
        (.func (m.types.getD (m.functions.getD ex.index 0) 0))).2 }, ?_, rfl, ?_⟩
  · unfold export_step
    dsimp only
    rw [hee]
    dsimp only
    simp only [add_export]
    rw [if_neg (by simp [isMutableGlobal])]
    rw [hcm]
    rw [hcs]
    rw [hv]
    rfl
  · exact insertRef_mem_self _ _

/-- C9 witness: the duplicate function export on the concrete module, with
the mutated state exposed. -/
theorem c9_duplicate_export_mutates_state_witness :
    ∃ m₂, export_step E0 (.owned mE) ⟨"a", .func, 0⟩ =
        .error (.duplicateExport "a") (.owned m₂) ∧
      m₂.type_size = mE.type_size + 1 ∧ 0 ∈ m₂.function_references := by
  obtain ⟨m₂, hstep, hts, hmem⟩ :=
    c9_duplicate_export_mutates_state E0 mE ⟨"a", .func, 0⟩ rfl
      (by decide) (by decide) (by decide) (by decide)
  exact ⟨m₂, hstep, hts, hmem⟩

end WasmCore
